import Mathlib

/-!
Shallow embedding of the PepeEdtaBot Markov core (`db.py`, `markov.py`):
the per-chat n-gram counter store, the effective-volume computation, the
detokenizer, the generator's bounded transition caches and the generation
algorithm itself. Randomness in the generator is abstracted by an oracle
supplying the floats drawn by `random.random()` and the indices selected
by `random.choice` / `random.choices`.
-/

namespace PepeEdtaBot

/-- Python strings are modelled as lists of characters. -/
abbrev Str := List Char

/-- Convenience conversion for writing concrete examples. -/
def str (s : String) : Str := s.data

/-! ## Counter tables (db.py)

Each SQLite counter table is modelled as an association list from its
primary key to its `cnt` column, in row-insertion order. -/

abbrev Table (κ : Type) := List (κ × Nat)

namespace Table

/-- `INSERT ... VALUES (..., d) ON CONFLICT(key) DO UPDATE SET cnt = cnt + d`:
bump the counter of the existing row for the key, or append a fresh row. -/
def upsert {κ : Type} [DecidableEq κ] : Table κ → κ → Nat → Table κ
  | [], k, d => [(k, d)]
  | (k', c) :: rest, k, d =>
    if k' = k then (k', c + d) :: rest else (k', c) :: upsert rest k d

/-- `executemany` of the upsert statement over a batch of (key, delta) rows. -/
def upsertMany {κ : Type} [DecidableEq κ] (t : Table κ) (items : List (κ × Nat)) : Table κ :=
  items.foldl (fun acc kd => acc.upsert kd.1 kd.2) t

/-- Counter value recorded for a key (0 when the key has no row). -/
def cnt {κ : Type} [DecidableEq κ] : Table κ → κ → Nat
  | [], _ => 0
  | (k', c) :: rest, k => (if k' = k then c else 0) + cnt rest k

/-- `SELECT COALESCE(SUM(cnt), 0) ... WHERE <p key>`. -/
def sumWhere {κ : Type} (t : Table κ) (p : κ → Prop) [DecidablePred p] : Nat :=
  match t with
  | [] => 0
  | (k, c) :: rest => (if p k then c else 0) + sumWhere rest p

/-- Total delta that a batch of (key, delta) rows carries for one key. -/
def itemsFor {κ : Type} [DecidableEq κ] : List (κ × Nat) → κ → Nat
  | [], _ => 0
  | (k', d) :: rest, k => (if k' = k then d else 0) + itemsFor rest k

/-- Total delta that a batch carries for keys satisfying `p`. -/
def itemsWhere {κ : Type} (items : List (κ × Nat)) (p : κ → Prop) [DecidablePred p] : Nat :=
  match items with
  | [] => 0
  | (k, d) :: rest => (if p k then d else 0) + itemsWhere rest p

end Table

/-! ## Python `collections.Counter` over a list of n-grams -/

/-- All elements of `l` different from `a` (in order). -/
def removeAll {α : Type} [DecidableEq α] : List α → α → List α
  | [], _ => []
  | x :: rest, a => if x = a then removeAll rest a else x :: removeAll rest a

/-- Number of occurrences of `a` in `l`. -/
def occ {α : Type} [DecidableEq α] : List α → α → Nat
  | [], _ => 0
  | x :: rest, a => (if x = a then 1 else 0) + occ rest a

theorem length_removeAll_le {α : Type} [DecidableEq α] (l : List α) (a : α) :
    (removeAll l a).length ≤ l.length := by
  induction l with
  | nil => simp [removeAll]
  | cons x rest ih =>
    by_cases h : x = a <;> simp [removeAll, h] <;> omega

/-- `Counter(l)`: each distinct element of `l` paired with its number of
occurrences, keyed by first occurrence. -/
def counterItems {α : Type} [DecidableEq α] : List α → List (α × Nat)
  | [] => []
  | a :: rest => (a, 1 + occ rest a) :: counterItems (removeAll rest a)
termination_by l => l.length
decreasing_by
  simp only [List.length_cons]
  exact Nat.lt_succ_of_le (length_removeAll_le _ _)

/-! ## The n-grams counted by `save_message_and_update_model` -/

/-- `[(tokens[i], tokens[i+1]) for i in range(len(tokens) - 1)]`. -/
def bigrams (tokens : List Str) : List (Str × Str) :=
  (List.range (tokens.length - 1)).map (fun i => (tokens.getD i [], tokens.getD (i + 1) []))

/-- `[(tokens[i], tokens[i+1], tokens[i+2]) for i in range(len(tokens) - 2)]`. -/
def trigrams (tokens : List Str) : List (Str × Str × Str) :=
  (List.range (tokens.length - 2)).map
    (fun i => (tokens.getD i [], tokens.getD (i + 1) [], tokens.getD (i + 2) []))

/-- `[(tokens[i], ..., tokens[i+3]) for i in range(len(tokens) - 3)]`. -/
def quadgrams (tokens : List Str) : List (Str × Str × Str × Str) :=
  (List.range (tokens.length - 3)).map
    (fun i => (tokens.getD i [], tokens.getD (i + 1) [],
               tokens.getD (i + 2) [], tokens.getD (i + 3) []))

/-! ## The database state (db.py) -/

/-- The five counter tables plus the raw message log, exactly the schema of
`db.py`; rows carry (chat_id, token components) keys and a `cnt` column. -/
structure DBState where
  messages : List (Int × Int × Str)
  starts : Table (Int × Str × Str)
  starts3 : Table (Int × Str × Str × Str)
  transitions : Table (Int × Str × Str × Str)
  transitions3 : Table (Int × Str × Str × Str × Str)
  transitions1 : Table (Int × Str × Str)

def DBState.empty : DBState :=
  { messages := [], starts := [], starts3 := [],
    transitions := [], transitions3 := [], transitions1 := [] }

/-- `Database.save_message_and_update_model`: insert the raw message, upsert
the start keys and the batched n-gram counters, and return the post-update
volume (`volume3` if positive, else `volume2`). -/
def save_message_and_update_model (s : DBState) (chat_id author_id : Int)
    (raw_text : Str) (tokens : List Str) : DBState × Nat :=
  let trans1_counter : List ((Str × Str) × Nat) :=
    if 2 ≤ tokens.length then counterItems (bigrams tokens) else []
  let trans2_counter : List ((Str × Str × Str) × Nat) :=
    if 3 ≤ tokens.length then counterItems (trigrams tokens) else []
  let trans3_counter : List ((Str × Str × Str × Str) × Nat) :=
    if 4 ≤ tokens.length then counterItems (quadgrams tokens) else []
  let messages' := s.messages ++ [(chat_id, author_id, raw_text)]
  let starts' :=
    if 2 ≤ tokens.length then
      s.starts.upsert (chat_id, tokens.getD 0 [], tokens.getD 1 []) 1
    else s.starts
  let starts3' :=
    if 3 ≤ tokens.length then
      s.starts3.upsert (chat_id, tokens.getD 0 [], tokens.getD 1 [], tokens.getD 2 []) 1
    else s.starts3
  let transitions1' :=
    s.transitions1.upsertMany
      (trans1_counter.map (fun kd => ((chat_id, kd.1.1, kd.1.2), kd.2)))
  let transitions' :=
    s.transitions.upsertMany
      (trans2_counter.map (fun kd => ((chat_id, kd.1.1, kd.1.2.1, kd.1.2.2), kd.2)))
  let transitions3' :=
    s.transitions3.upsertMany
      (trans3_counter.map
        (fun kd => ((chat_id, kd.1.1, kd.1.2.1, kd.1.2.2.1, kd.1.2.2.2), kd.2)))
  let s' : DBState :=
    { messages := messages', starts := starts', starts3 := starts3',
      transitions := transitions', transitions3 := transitions3',
      transitions1 := transitions1' }
  let volume3 := s'.transitions3.sumWhere (fun k => k.1 = chat_id)
  let volume2 := s'.transitions.sumWhere (fun k => k.1 = chat_id)
  (s', if 0 < volume3 then volume3 else volume2)

/-- `Database.get_chat_token_volume`. -/
def get_chat_token_volume (s : DBState) (chat_id : Int) : Nat :=
  let volume3 := s.transitions3.sumWhere (fun k => k.1 = chat_id)
  if 0 < volume3 then volume3
  else s.transitions.sumWhere (fun k => k.1 = chat_id)

/-- The "effective learned volume" in the spec's words: the sum of all
order-3 transition counts of the chat if that sum is positive, otherwise
the sum of all order-2 transition counts, otherwise 0. -/
def effectiveVolumeSpec (s : DBState) (chat_id : Int) : Nat :=
  let v3 := s.transitions3.sumWhere (fun k => k.1 = chat_id)
  let v2 := s.transitions.sumWhere (fun k => k.1 = chat_id)
  if 0 < v3 then v3 else if 0 < v2 then v2 else 0

/-! ## Read queries (db.py) -/

/-- `Database.get_starts`: all (w1, w2, cnt) rows of the chat. -/
def get_starts (s : DBState) (chat_id : Int) : List (Str × Str × Nat) :=
  s.starts.filterMap
    (fun r => if r.1.1 = chat_id then some (r.1.2.1, r.1.2.2, r.2) else none)

/-- `Database.get_starts3`: all (w1, w2, w3, cnt) rows of the chat. -/
def get_starts3 (s : DBState) (chat_id : Int) : List (Str × Str × Str × Nat) :=
  s.starts3.filterMap
    (fun r => if r.1.1 = chat_id then some (r.1.2.1, r.1.2.2.1, r.1.2.2.2, r.2) else none)

/-- `Database.get_start_if_exists`: point lookup in `starts`. -/
def get_start_if_exists (s : DBState) (chat_id : Int) (w1 w2 : Str) :
    Option (Str × Str × Nat) :=
  (s.starts.find? (fun r => r.1 = (chat_id, w1, w2))).map
    (fun r => (r.1.2.1, r.1.2.2, r.2))

/-- `Database.get_start3_if_exists`: point lookup in `starts3`. -/
def get_start3_if_exists (s : DBState) (chat_id : Int) (w1 w2 w3 : Str) :
    Option (Str × Str × Str × Nat) :=
  (s.starts3.find? (fun r => r.1 = (chat_id, w1, w2, w3))).map
    (fun r => (r.1.2.1, r.1.2.2.1, r.1.2.2.2, r.2))

/-- `Database.get_transitions`: successors (w3, cnt) of (w1, w2). -/
def get_transitions (s : DBState) (chat_id : Int) (w1 w2 : Str) : List (Str × Nat) :=
  s.transitions.filterMap
    (fun r =>
      if r.1.1 = chat_id ∧ r.1.2.1 = w1 ∧ r.1.2.2.1 = w2
      then some (r.1.2.2.2, r.2) else none)

/-- `Database.get_transitions3`: successors (w4, cnt) of (w1, w2, w3). -/
def get_transitions3 (s : DBState) (chat_id : Int) (w1 w2 w3 : Str) : List (Str × Nat) :=
  s.transitions3.filterMap
    (fun r =>
      if r.1.1 = chat_id ∧ r.1.2.1 = w1 ∧ r.1.2.2.1 = w2 ∧ r.1.2.2.2.1 = w3
      then some (r.1.2.2.2.2, r.2) else none)

/-- `Database.get_transitions1`: successors (w2, cnt) of (w1). -/
def get_transitions1 (s : DBState) (chat_id : Int) (w1 : Str) : List (Str × Nat) :=
  s.transitions1.filterMap
    (fun r => if r.1.1 = chat_id ∧ r.1.2.1 = w1 then some (r.1.2.2, r.2) else none)

/-- `Database.message_exists`: exact-text lookup in the message log. -/
def message_exists (s : DBState) (chat_id : Int) (text : Str) : Bool :=
  s.messages.any (fun m => m.1 = chat_id ∧ m.2.2 = text)

/-! ## Detokenization (markov.py)

`str.strip` / `str.rstrip` are modelled on the whitespace predicate of
`Char.isWhitespace`; the tokens the bot produces never contain whitespace,
so the choice of whitespace class is immaterial for them. -/

/-- `PUNCT_SET = {".", ",", "!", "?", ";", ":"}`. -/
def PUNCT_SET : List Str := [['.'], [','], ['!'], ['?'], [';'], [':']]

/-- `str.rstrip()`. -/
def pyRstrip (s : Str) : Str :=
  (s.reverse.dropWhile Char.isWhitespace).reverse

/-- `str.strip()`. -/
def pyStrip (s : Str) : Str :=
  pyRstrip (s.dropWhile Char.isWhitespace)

/-- The `parts` list built by `detokenize`'s loop, held in reverse so that
the Python `parts[-1] = parts[-1] + token` update is a head update. -/
def buildPartsRev (tokens : List Str) : List Str :=
  tokens.foldl
    (fun acc token =>
      match acc with
      | [] => [token]
      | last :: rest =>
        if token ∈ PUNCT_SET then (last ++ token) :: rest
        else (' ' :: token) :: last :: rest)
    []

/-- `detokenize(tokens, max_chars)`. -/
def detokenize (tokens : List Str) (max_chars : Nat) : Str :=
  if tokens = [] then []
  else
    let text := pyStrip (buildPartsRev tokens).reverse.join
    if max_chars < text.length then pyRstrip (text.take max_chars) else text

/-- The claim's description of detokenization, taken at its word: word tokens
are concatenated with a single leading space, punctuation tokens attach to the
preceding material with no space, then the result is truncated by a plain
slice to the character budget and trailing whitespace is stripped. -/
def detokenizeClaim (tokens : List Str) (max_chars : Nat) : Str :=
  let text := tokens.foldl
    (fun acc token =>
      if acc = [] then token
      else if token ∈ PUNCT_SET then acc ++ token
      else acc ++ ' ' :: token)
    []
  pyRstrip (text.take max_chars)

/-! ## The generator's bounded caches (markov.py)

`collections.OrderedDict` is modelled as an association list in recency
order: front = least recently used, back = most recently used. -/

namespace OD

/-- `key in od` / `od[key]`. -/
def lookup {κ ν : Type} [DecidableEq κ] : List (κ × ν) → κ → Option ν
  | [], _ => none
  | e :: rest, k => if e.1 = k then some e.2 else lookup rest k

/-- `od[key] = value`: update in place when present, else append at the end. -/
def set {κ ν : Type} [DecidableEq κ] (d : List (κ × ν)) (k : κ) (v : ν) : List (κ × ν) :=
  if (lookup d k).isSome
  then d.map (fun e => if e.1 = k then (e.1, v) else e)
  else d ++ [(k, v)]

/-- Remove every entry stored under a key (`od.pop(key)`; the dict keeps at
most one entry per key, so this is the single-entry pop). -/
def removeKey {κ ν : Type} [DecidableEq κ] : List (κ × ν) → κ → List (κ × ν)
  | [], _ => []
  | e :: rest, k => if e.1 = k then removeKey rest k else e :: removeKey rest k

/-- `od.move_to_end(key)`. -/
def moveToEnd {κ ν : Type} [DecidableEq κ] (d : List (κ × ν)) (k : κ) : List (κ × ν) :=
  match lookup d k with
  | some v => removeKey d k ++ [(k, v)]
  | none => d

/-- All keys of the entries belonging to one chat, in order
(`[k for k in cache if k[0] == chat_id]`). -/
def chatKeys {ρ ν : Type} : List ((Int × ρ) × ν) → Int → List (Int × ρ)
  | [], _ => []
  | e :: rest, c => if e.1.1 = c then e.1 :: chatKeys rest c else chatKeys rest c

/-- Pop every collected key of the chat from one cache. -/
def invalidateOne {ρ ν : Type} [DecidableEq ρ] (d : List ((Int × ρ) × ν)) (chat_id : Int) :
    List ((Int × ρ) × ν) :=
  (chatKeys d chat_id).foldl (fun acc k => removeKey acc k) d

end OD

/-- Rows returned by a transition query: (successor token, count). -/
abbrev Rows := List (Str × Nat)

/-- The three per-order transition caches of `MarkovGenerator`. -/
structure GenCaches where
  cache3 : List ((Int × Str × Str × Str) × Rows)
  cache2 : List ((Int × Str × Str) × Rows)
  cache1 : List ((Int × Str) × Rows)

def GenCaches.empty : GenCaches := { cache3 := [], cache2 := [], cache1 := [] }

/-- The tunables of `MarkovGenerator` (`max_steps=90`, `cache_limit=1024`). -/
structure GenParams where
  max_steps : Nat
  cache_limit : Nat

def defaultGenParams : GenParams := { max_steps := 90, cache_limit := 1024 }

/-- `MarkovGenerator.invalidate_chat_cache`. -/
def invalidate_chat_cache (g : GenCaches) (chat_id : Int) : GenCaches :=
  { cache3 := OD.invalidateOne g.cache3 chat_id,
    cache2 := OD.invalidateOne g.cache2 chat_id,
    cache1 := OD.invalidateOne g.cache1 chat_id }

/-- `MarkovGenerator._touch_cache`: store, move to the recency end, and evict
the least-recently-used entry if the capacity is exceeded. -/
def touch_cache {κ : Type} [DecidableEq κ] (cache_limit : Nat) (d : List (κ × Rows))
    (k : κ) (v : Rows) : List (κ × Rows) :=
  let d := OD.moveToEnd (OD.set d k v) k
  if cache_limit < d.length then d.tail else d

/-! ## Randomness oracle

`random.random()` draws are modelled as a stream of rationals and every
`random.choice` / `random.choices` selection as a stream of indices into the
population handed to it; the weight expression `max(cnt, 1) ** power` and the
uniform-vs-weighted Bernoulli gate only shape the sampling distribution, which
the oracle abstracts — each call returns the population element at the
oracle-chosen index and consumes one float and one index. -/

structure Oracle where
  floats : Nat → ℚ
  picks : Nat → Nat

/-- Mutable generator state threaded through a call: the caches plus the
number of floats / picks consumed so far. -/
structure GenState where
  caches : GenCaches
  nf : Nat
  np : Nat

def GenState.initial : GenState := { caches := GenCaches.empty, nf := 0, np := 0 }

/-- One `random.random()` draw. -/
def randomFloat (o : Oracle) (st : GenState) : ℚ × GenState :=
  (o.floats st.nf, { st with nf := st.nf + 1 })

/-- One selection among `n` candidates (`random.choice` / `random.choices`). -/
def randomIndex (o : Oracle) (st : GenState) (n : Nat) : Nat × GenState :=
  (o.picks st.np % n, { st with np := st.np + 1 })

/-- `weighted_next_choice`: `none` models the exception the Python sampler
raises on an empty population. -/
def weighted_next_choice (o : Oracle) (st : GenState) (items : List (Str × Nat))
    (explore power : ℚ) : Option Str × GenState :=
  let population := items.map (fun it => it.1)
  let st1 := (randomFloat o st).2
  let ir := randomIndex o st1 population.length
  (population.get? ir.1, ir.2)

/-- `weighted_start2_choice`. -/
def weighted_start2_choice (o : Oracle) (st : GenState) (items : List (Str × Str × Nat))
    (explore power : ℚ) : Option (Str × Str) × GenState :=
  let population := items.map (fun it => (it.1, it.2.1))
  let st1 := (randomFloat o st).2
  let ir := randomIndex o st1 population.length
  (population.get? ir.1, ir.2)

/-- `weighted_start3_choice`. -/
def weighted_start3_choice (o : Oracle) (st : GenState) (items : List (Str × Str × Str × Nat))
    (explore power : ℚ) : Option (Str × Str × Str) × GenState :=
  let population := items.map (fun it => (it.1, it.2.1, it.2.2.1))
  let st1 := (randomFloat o st).2
  let ir := randomIndex o st1 population.length
  (population.get? ir.1, ir.2)

/-- `MarkovGenerator._get3`: read-through lookup with recency refresh. -/
def get3 (P : GenParams) (db : DBState) (st : GenState) (chat_id : Int) (w1 w2 w3 : Str) :
    Rows × GenState :=
  let key := (chat_id, w1, w2, w3)
  match OD.lookup st.caches.cache3 key with
  | some rows =>
    (rows, { st with caches := { st.caches with
      cache3 := OD.moveToEnd st.caches.cache3 key } })
  | none =>
    let rows := get_transitions3 db chat_id w1 w2 w3
    (rows, { st with caches := { st.caches with
      cache3 := touch_cache P.cache_limit st.caches.cache3 key rows } })

/-- `MarkovGenerator._get2`. -/
def get2 (P : GenParams) (db : DBState) (st : GenState) (chat_id : Int) (w1 w2 : Str) :
    Rows × GenState :=
  let key := (chat_id, w1, w2)
  match OD.lookup st.caches.cache2 key with
  | some rows =>
    (rows, { st with caches := { st.caches with
      cache2 := OD.moveToEnd st.caches.cache2 key } })
  | none =>
    let rows := get_transitions db chat_id w1 w2
    (rows, { st with caches := { st.caches with
      cache2 := touch_cache P.cache_limit st.caches.cache2 key rows } })

/-- `MarkovGenerator._get1`. -/
def get1 (P : GenParams) (db : DBState) (st : GenState) (chat_id : Int) (w1 : Str) :
    Rows × GenState :=
  let key := (chat_id, w1)
  match OD.lookup st.caches.cache1 key with
  | some rows =>
    (rows, { st with caches := { st.caches with
      cache1 := OD.moveToEnd st.caches.cache1 key } })
  | none =>
    let rows := get_transitions1 db chat_id w1
    (rows, { st with caches := { st.caches with
      cache1 := touch_cache P.cache_limit st.caches.cache1 key rows } })

/-! ## The generation algorithm (markov.py, `generate_text`) -/

/-- Result of the starting-prefix resolution (lines 144–172): `failed` models
an exception escaping from a sampler, `giveUp` an early `return ""`. -/
inductive StartRes
  | failed
  | giveUp
  | ok (w1 w2 w3 : Str)
deriving DecidableEq

/-- Lines 160–172: pick a weighted order-3 start, else a weighted order-2
start extended by one weighted successor, else give up. -/
def start_from_model (P : GenParams) (db : DBState) (o : Oracle) (chat_id : Int)
    (starts3 : List (Str × Str × Str × Nat)) (starts2 : List (Str × Str × Nat))
    (next_explore next_power start_explore start_power : ℚ) (st : GenState) :
    StartRes × GenState :=
  if ¬ starts3 = [] then
    let wr := weighted_start3_choice o st starts3 start_explore start_power
    match wr.1 with
    | none => (StartRes.failed, wr.2)
    | some t => (StartRes.ok t.1 t.2.1 t.2.2, wr.2)
  else if ¬ starts2 = [] then
    let wr := weighted_start2_choice o st starts2 start_explore start_power
    match wr.1 with
    | none => (StartRes.failed, wr.2)
    | some p =>
      let vr := get2 P db wr.2 chat_id p.1 p.2
      if vr.1 = [] then (StartRes.giveUp, vr.2)
      else
        let wr2 := weighted_next_choice o vr.2 vr.1 next_explore next_power
        match wr2.1 with
        | none => (StartRes.failed, wr2.2)
        | some w3 => (StartRes.ok p.1 p.2 w3, wr2.2)
  else (StartRes.giveUp, st)

/-- Lines 144–172: resolve the starting 3-token prefix, honouring a supplied
seed first (3-token seed recorded as an order-3 start, else 2-token seed
recorded as an order-2 start extended by one sampled successor), then falling
back to the model's recorded starts. -/
def resolve_start3 (P : GenParams) (db : DBState) (o : Oracle) (chat_id : Int)
    (seed_tokens : Option (List Str))
    (starts3 : List (Str × Str × Str × Nat)) (starts2 : List (Str × Str × Nat))
    (next_explore next_power start_explore start_power : ℚ) (st : GenState) :
    StartRes × GenState :=
  let seeded3 : Option (Str × Str × Str × Nat) :=
    match seed_tokens with
    | some seeds =>
      if 3 ≤ seeds.length then
        get_start3_if_exists db chat_id (seeds.getD 0 []) (seeds.getD 1 []) (seeds.getD 2 [])
      else none
    | none => none
  match seeded3 with
  | some r => (StartRes.ok r.1 r.2.1 r.2.2.1, st)
  | none =>
    let seeded2 : Option (Str × Str × Nat) :=
      match seed_tokens with
      | some seeds =>
        if 2 ≤ seeds.length then
          get_start_if_exists db chat_id (seeds.getD 0 []) (seeds.getD 1 [])
        else none
      | none => none
    match seeded2 with
    | some r =>
      let w1 := r.1
      let w2 := r.2.1
      let vr := get2 P db st chat_id w1 w2
      if vr.1 = [] then
        start_from_model P db o chat_id starts3 starts2
          next_explore next_power start_explore start_power vr.2
      else
        let wr := weighted_next_choice o vr.2 vr.1 next_explore next_power
        match wr.1 with
        | none => (StartRes.failed, wr.2)
        | some w3 => (StartRes.ok w1 w2 w3, wr.2)
    | none =>
      start_from_model P db o chat_id starts3 starts2
        next_explore next_power start_explore start_power st

/-- Outcome of one iteration of the extension loop. -/
inductive StepOut
  | failed
  | jumped (nw1 nw2 nw3 : Str)
  | broke
  | extended (w4 : Str)
deriving DecidableEq

/-- Instrumentation recording which backoff tiers the iteration queried;
carried alongside the outcome, never influencing it. -/
structure StepInfo where
  queried2 : Bool
  queried1 : Bool
deriving DecidableEq

/-- Lines 186–206: choose the next token from the order-3 pool, or back off
to the order-2 and order-1 tiers. -/
def generate_tiers (P : GenParams) (db : DBState) (o : Oracle) (chat_id : Int)
    (order : Int) (enable_backoff : Bool) (backoff_min_order : Int)
    (next_explore next_power : ℚ) (w1 w2 w3 : Str)
    (visited : List (Str × Str × Str)) (st : GenState) :
    StepOut × StepInfo × GenState :=
  let pr3 := if 3 ≤ order then get3 P db st chat_id w1 w2 w3 else ([], st)
  let pool3 := pr3.1
  if ¬ pool3 = [] ∧ 3 ≤ order then
    let candidates := pool3.filter (fun cc => ¬ (w2, w3, cc.1) ∈ visited)
    let pool := if candidates = [] then pool3 else candidates
    let wr := weighted_next_choice o pr3.2 pool next_explore next_power
    match wr.1 with
    | none => (StepOut.failed, ⟨false, false⟩, wr.2)
    | some w4 => (StepOut.extended w4, ⟨false, false⟩, wr.2)
  else
    if enable_backoff = false ∧ 3 ≤ order then (StepOut.broke, ⟨false, false⟩, pr3.2)
    else
      let pr2 := get2 P db pr3.2 chat_id w2 w3
      if ¬ pr2.1 = [] then
        let wr := weighted_next_choice o pr2.2 pr2.1 next_explore next_power
        match wr.1 with
        | none => (StepOut.failed, ⟨true, false⟩, wr.2)
        | some w4 => (StepOut.extended w4, ⟨true, false⟩, wr.2)
      else
        if enable_backoff = false ∨ 1 < backoff_min_order then
          (StepOut.broke, ⟨true, false⟩, pr2.2)
        else
          let pr1 := get1 P db pr2.2 chat_id w3
          if pr1.1 = [] then (StepOut.broke, ⟨true, true⟩, pr1.2)
          else
            let wr := weighted_next_choice o pr1.2 pr1.1 next_explore next_power
            match wr.1 with
            | none => (StepOut.failed, ⟨true, true⟩, wr.2)
            | some w4 => (StepOut.extended w4, ⟨true, true⟩, wr.2)

/-- Lines 180–206: one loop iteration — possibly a context jump (only once
the sequence is longer than 8 tokens, with the jump coin drawn first, as the
Python short-circuit evaluates `random.random()` before the other tests),
otherwise a tiered extension choice. -/
def generate_step (P : GenParams) (db : DBState) (o : Oracle) (chat_id : Int)
    (starts3 : List (Str × Str × Str × Nat)) (order : Int) (enable_backoff : Bool)
    (backoff_min_order : Int) (jump_probability next_explore next_power
    start_explore start_power : ℚ) (w1 w2 w3 : Str) (generated : List Str)
    (visited : List (Str × Str × Str)) (st : GenState) :
    StepOut × StepInfo × GenState :=
  if 8 < generated.length then
    let rr := randomFloat o st
    if rr.1 < jump_probability ∧ ¬ starts3 = [] ∧ 3 ≤ order then
      let wr := weighted_start3_choice o rr.2 starts3 start_explore start_power
      match wr.1 with
      | none => (StepOut.failed, ⟨false, false⟩, wr.2)
      | some t => (StepOut.jumped t.1 t.2.1 t.2.2, ⟨false, false⟩, wr.2)
    else
      generate_tiers P db o chat_id order enable_backoff backoff_min_order
        next_explore next_power w1 w2 w3 visited rr.2
  else
    generate_tiers P db o chat_id order enable_backoff backoff_min_order
      next_explore next_power w1 w2 w3 visited st

/-- `set.add`: Python sets do not store duplicates. -/
def setAdd {α : Type} [DecidableEq α] (s : List α) (a : α) : List α :=
  if a ∈ s then s else a :: s

/-- Lines 179–216 (`for _ in range(self.max_steps)`), driven by a fuel
counter. `visited_triplets.pop()` removes an unspecified element of a CPython
set; the model removes the most recently added one. The `none` result models
an exception escaping the loop. -/
def generate_loop (P : GenParams) (db : DBState) (o : Oracle) (chat_id : Int)
    (max_chars : Nat) (starts3 : List (Str × Str × Str × Nat)) (order : Int)
    (enable_backoff : Bool) (backoff_min_order : Int)
    (jump_probability next_explore next_power start_explore start_power : ℚ) :
    Nat → Str → Str → Str → List Str → List (Str × Str × Str) → Nat → GenState →
    Option (List Str × Nat) × GenState
  | 0, _, _, _, generated, _, jump_count, st => (some (generated, jump_count), st)
  | fuel + 1, w1, w2, w3, generated, visited, jump_count, st =>
    let sr := generate_step P db o chat_id starts3 order enable_backoff backoff_min_order
      jump_probability next_explore next_power start_explore start_power
      w1 w2 w3 generated visited st
    match sr.1 with
    | StepOut.failed => (none, sr.2.2)
    | StepOut.broke => (some (generated, jump_count), sr.2.2)
    | StepOut.jumped nw1 nw2 nw3 =>
      generate_loop P db o chat_id max_chars starts3 order enable_backoff
        backoff_min_order jump_probability next_explore next_power start_explore
        start_power fuel nw1 nw2 nw3 generated visited (jump_count + 1) sr.2.2
    | StepOut.extended w4 =>
      let generated := generated ++ [w4]
      let maybe_text := detokenize generated max_chars
      if max_chars ≤ maybe_text.length then (some (generated, jump_count), sr.2.2)
      else
        let visited := setAdd visited (w2, w3, w4)
        let visited := if 40 < visited.length then visited.tail else visited
        generate_loop P db o chat_id max_chars starts3 order enable_backoff
          backoff_min_order jump_probability next_explore next_power start_explore
          start_power fuel w2 w3 w4 generated visited jump_count sr.2.2

/-- Outcome of a run up to (but excluding) the final acceptance checks. -/
inductive GenOutcome
  | failed
  | early
  | finished (generated : List Str) (jump_count : Nat)
deriving DecidableEq

/-- The clamp `max(0.0, min(3.0, randomness_strength))` of line 132. -/
def clampStrength (randomness_strength : ℚ) : ℚ :=
  max 0 (min 3 randomness_strength)

/-- Lines 144–216 after the zero-starts gate: start resolution followed by
the extension loop. -/
def generate_after_gate (P : GenParams) (db : DBState) (o : Oracle) (chat_id : Int)
    (max_chars : Nat) (seed_tokens : Option (List Str))
    (starts3 : List (Str × Str × Str × Nat)) (starts2 : List (Str × Str × Nat))
    (order : Int) (enable_backoff : Bool) (backoff_min_order : Int)
    (jump_probability next_explore next_power start_explore start_power : ℚ)
    (st : GenState) : GenOutcome × GenState :=
  let rr := resolve_start3 P db o chat_id seed_tokens starts3 starts2
    next_explore next_power start_explore start_power st
  match rr.1 with
  | StartRes.failed => (GenOutcome.failed, rr.2)
  | StartRes.giveUp => (GenOutcome.early, rr.2)
  | StartRes.ok w1 w2 w3 =>
    let lr := generate_loop P db o chat_id max_chars starts3 order enable_backoff
      backoff_min_order jump_probability next_explore next_power start_explore
      start_power P.max_steps w1 w2 w3 [w1, w2, w3] [(w1, w2, w3)] 0 rr.2
    match lr.1 with
    | none => (GenOutcome.failed, lr.2)
    | some gj => (GenOutcome.finished gj.1 gj.2, lr.2)

/-- Lines 131–216 of `generate_text`: derived parameters, the zero-starts
gate, start resolution and the extension loop. The Python float constants
are carried exactly as rationals; none of the verified claims depends on the
rounding of their binary-float counterparts. -/
def generate_core (P : GenParams) (db : DBState) (o : Oracle) (chat_id : Int)
    (max_chars : Nat) (seed_tokens : Option (List Str)) (randomness_strength : ℚ)
    (markov_order : Int) (enable_backoff : Bool) (backoff_min_order : Int)
    (st : GenState) : GenOutcome × GenState :=
  let order : Int := if 3 ≤ markov_order then 3 else 2
  let strength := clampStrength randomness_strength
  let next_explore := min (98/100 : ℚ) (12/100 + 18/100 * strength)
  let next_power := max (15/100 : ℚ) (72/100 - 16/100 * strength)
  let start_explore := min (98/100 : ℚ) (20/100 + 20/100 * strength)
  let start_power := max (15/100 : ℚ) (75/100 - 18/100 * strength)
  let jump_probability := min (32/100 : ℚ) (3/100 + 8/100 * strength)
  let starts3 := if 3 ≤ order then get_starts3 db chat_id else []
  let starts2 := get_starts db chat_id
  if starts3 = [] ∧ starts2 = [] then (GenOutcome.early, st)
  else
    generate_after_gate P db o chat_id max_chars seed_tokens starts3 starts2 order
      enable_backoff backoff_min_order jump_probability next_explore next_power
      start_explore start_power st

/-- `MarkovGenerator.generate_text`: the core run followed by the acceptance
checks of lines 218–225. `none` models an exception escaping the call;
`some []` is the empty-string result. -/
def generate_text (P : GenParams) (db : DBState) (o : Oracle) (chat_id : Int)
    (max_chars : Nat) (seed_tokens : Option (List Str)) (randomness_strength : ℚ)
    (markov_order : Int) (enable_backoff : Bool) (backoff_min_order : Int)
    (st : GenState) : Option Str × GenState :=
  let strength := clampStrength randomness_strength
  let cr := generate_core P db o chat_id max_chars seed_tokens randomness_strength
    markov_order enable_backoff backoff_min_order st
  match cr.1 with
  | GenOutcome.failed => (none, cr.2)
  | GenOutcome.early => (some [], cr.2)
  | GenOutcome.finished generated jump_count =>
    let result := detokenize generated max_chars
    if result.length < 5 then (some [], cr.2)
    else if message_exists db chat_id result then (some [], cr.2)
    else if 3/2 ≤ strength ∧ 10 < generated.length ∧ jump_count = 0 then (some [], cr.2)
    else (some result, cr.2)

/-! ## Concrete fixtures used in counterexamples and witnesses -/

/-- A deterministic oracle: every float draw is 0 and every pick is index 0. -/
def zeroOracle : Oracle := { floats := fun _ => 0, picks := fun _ => 0 }

/-- A chat that only ever saw 2-token messages: one order-2 start is recorded
but the order-2 transition table (trigrams) is empty. -/
def dbStartNoContinuation : DBState :=
  { DBState.empty with starts := [((0, str "a", str "b"), 1)] }

/-- A chat with one recorded order-3 start whose context has no order-3
continuation but does have an order-2 continuation. -/
def dbOrder2Fallback : DBState :=
  { DBState.empty with
    starts3 := [((0, str "aa", str "bb", str "cc"), 1)],
    starts := [((0, str "aa", str "bb"), 1)],
    transitions := [((0, str "bb", str "cc", str "dd"), 1)] }

/-- A chat holding exactly the two four-token messages of the repository's
seeded-generation test. -/
def dbSeeded : DBState :=
  (save_message_and_update_model
    (save_message_and_update_model DBState.empty 7 1 (str "Я очень люблю питон")
      [str "Я", str "очень", str "люблю", str "питон"]).1
    7 2 (str "Я очень люблю кофе") [str "Я", str "очень", str "люблю", str "кофе"]).1

/-- A chat that saw the 2-token message "a b" and the 3-token message
"x y z" (the tables `save_message_and_update_model` builds from those two
messages): the pair (a, b) is a recorded order-2 start with no recorded
continuation, while the chat still has a recorded order-3 start. -/
def dbSeedFallThrough : DBState :=
  { messages := [(9, 1, str "a b"), (9, 2, str "x y z")],
    starts := [((9, str "a", str "b"), 1), ((9, str "x", str "y"), 1)],
    starts3 := [((9, str "x", str "y", str "z"), 1)],
    transitions := [((9, str "x", str "y", str "z"), 1)],
    transitions3 := [],
    transitions1 := [((9, str "a", str "b"), 1), ((9, str "x", str "y"), 1),
      ((9, str "y", str "z"), 1)] }

/-! # Theorems

## Counter-table lemmas -/

namespace Table

theorem cnt_upsert {κ : Type} [DecidableEq κ] (t : Table κ) (k k' : κ) (d : Nat) :
    (t.upsert k d).cnt k' = t.cnt k' + if k' = k then d else 0 := by
  induction t with
  | nil =>
    by_cases h : k' = k
    · subst h
      simp [upsert, cnt]
    · have h' : ¬ k = k' := fun hh => h hh.symm
      simp [upsert, cnt, h, h']
  | cons hd tl ih =>
    obtain ⟨k₀, c₀⟩ := hd
    by_cases h0 : k₀ = k
    · subst h0
      simp only [upsert, if_pos rfl, cnt]
      by_cases h1 : k₀ = k'
      · subst h1
        simp
        omega
      · have h1' : ¬ k' = k₀ := fun hh => h1 hh.symm
        simp [h1, h1']
    · simp only [upsert, if_neg h0, cnt, ih]
      omega

theorem sumWhere_upsert {κ : Type} [DecidableEq κ] (t : Table κ) (p : κ → Prop)
    [DecidablePred p] (k : κ) (d : Nat) :
    (t.upsert k d).sumWhere p = t.sumWhere p + if p k then d else 0 := by
  induction t with
  | nil =>
    by_cases h : p k <;> simp [upsert, sumWhere, h]
  | cons hd tl ih =>
    obtain ⟨k₀, c₀⟩ := hd
    by_cases h0 : k₀ = k
    · subst h0
      by_cases h1 : p k₀ <;> simp [upsert, sumWhere, h1] <;> omega
    · simp only [upsert, if_neg h0, sumWhere, ih]
      omega

theorem cnt_upsertMany {κ : Type} [DecidableEq κ] (items : List (κ × Nat)) (t : Table κ)
    (k : κ) :
    (t.upsertMany items).cnt k = t.cnt k + itemsFor items k := by
  induction items generalizing t with
  | nil => simp [upsertMany, itemsFor]
  | cons hd tl ih =>
    obtain ⟨k₀, d₀⟩ := hd
    have hstep : (t.upsertMany ((k₀, d₀) :: tl)) = ((t.upsert k₀ d₀).upsertMany tl) := rfl
    rw [hstep, ih, cnt_upsert]
    simp only [itemsFor]
    by_cases h : k₀ = k
    · subst h
      simp
      omega
    · have h' : ¬ k = k₀ := fun hh => h hh.symm
      simp [h, h']

theorem sumWhere_upsertMany {κ : Type} [DecidableEq κ] (items : List (κ × Nat)) (t : Table κ)
    (p : κ → Prop) [DecidablePred p] :
    (t.upsertMany items).sumWhere p = t.sumWhere p + itemsWhere items p := by
  induction items generalizing t with
  | nil => simp [upsertMany, itemsWhere]
  | cons hd tl ih =>
    obtain ⟨k₀, d₀⟩ := hd
    have hstep : (t.upsertMany ((k₀, d₀) :: tl)) = ((t.upsert k₀ d₀).upsertMany tl) := rfl
    rw [hstep, ih, sumWhere_upsert]
    simp only [itemsWhere]
    omega

end Table

theorem occ_removeAll_self {α : Type} [DecidableEq α] (l : List α) (a : α) :
    occ (removeAll l a) a = 0 := by
  induction l with
  | nil => simp [removeAll, occ]
  | cons x rest ih =>
    by_cases h : x = a <;> simp [removeAll, occ, h, ih]

theorem occ_removeAll_ne {α : Type} [DecidableEq α] (l : List α) (a b : α) (hab : ¬ b = a) :
    occ (removeAll l a) b = occ l b := by
  induction l with
  | nil => simp [removeAll, occ]
  | cons x rest ih =>
    by_cases h : x = a
    · subst h
      have hxb : ¬ x = b := fun hh => hab hh.symm
      simp [removeAll, occ, hxb, ih]
    · simp [removeAll, occ, h, ih]

theorem length_removeAll_add_occ {α : Type} [DecidableEq α] (l : List α) (a : α) :
    (removeAll l a).length + occ l a = l.length := by
  induction l with
  | nil => simp [removeAll, occ]
  | cons x rest ih =>
    by_cases h : x = a <;> simp [removeAll, occ, h] <;> omega

/-- The counter records, for every key, exactly its occurrence count. -/
theorem itemsFor_counterItems {α : Type} [DecidableEq α] :
    ∀ (l : List α) (a : α), Table.itemsFor (counterItems l) a = occ l a
  | [], a => by simp [counterItems, Table.itemsFor, occ]
  | x :: rest, a => by
    rw [counterItems]
    have ih := itemsFor_counterItems (removeAll rest x) a
    by_cases h : x = a
    · subst h
      simp only [Table.itemsFor, if_pos rfl, ih, occ_removeAll_self, occ]
      simp
    · simp only [Table.itemsFor, if_neg h, ih, occ_removeAll_ne rest x a (fun hh => h hh.symm),
        occ, if_neg h]
termination_by l _ => l.length
decreasing_by
  simp only [List.length_cons]
  exact Nat.lt_succ_of_le (length_removeAll_le _ _)

/-- The counter's values total the length of the counted list. -/
theorem itemsWhere_counterItems_true {α : Type} [DecidableEq α] :
    ∀ l : List α, Table.itemsWhere (counterItems l) (fun _ => True) = l.length
  | [] => by simp [counterItems, Table.itemsWhere]
  | x :: rest => by
    rw [counterItems]
    have ih := itemsWhere_counterItems_true (removeAll rest x)
    have hlen := length_removeAll_add_occ rest x
    simp only [Table.itemsWhere, if_pos trivial, ih, List.length_cons]
    omega
termination_by l => l.length
decreasing_by
  simp only [List.length_cons]
  exact Nat.lt_succ_of_le (length_removeAll_le _ _)

/-! ### Transporting batches along a key embedding

The ingest path counts n-grams over plain token tuples and then prepends
the chat id when writing the rows; these lemmas relate the transported
batch to the original one. -/

theorem itemsFor_map {α κ : Type} [DecidableEq α] [DecidableEq κ] (f : α → κ)
    (items : List (α × Nat)) (k : κ) (a : α) (hf : ∀ x, f x = k ↔ x = a) :
    Table.itemsFor (items.map (fun kd => (f kd.1, kd.2))) k = Table.itemsFor items a := by
  induction items with
  | nil => simp [Table.itemsFor]
  | cons hd tl ih =>
    obtain ⟨x, d⟩ := hd
    simp only [List.map_cons, Table.itemsFor, ih, hf]

theorem itemsFor_map_none {α κ : Type} [DecidableEq α] [DecidableEq κ] (f : α → κ)
    (items : List (α × Nat)) (k : κ) (hf : ∀ x, ¬ f x = k) :
    Table.itemsFor (items.map (fun kd => (f kd.1, kd.2))) k = 0 := by
  induction items with
  | nil => simp [Table.itemsFor]
  | cons hd tl ih =>
    obtain ⟨x, d⟩ := hd
    simp [List.map_cons, Table.itemsFor, ih, hf x]

theorem itemsWhere_map_true {α κ : Type} (f : α → κ) (items : List (α × Nat))
    (p : κ → Prop) [DecidablePred p] (hf : ∀ x, p (f x)) :
    Table.itemsWhere (items.map (fun kd => (f kd.1, kd.2))) p
      = Table.itemsWhere items (fun _ => True) := by
  induction items with
  | nil => simp [Table.itemsWhere]
  | cons hd tl ih =>
    obtain ⟨x, d⟩ := hd
    simp [List.map_cons, Table.itemsWhere, ih, hf x]

theorem itemsWhere_map_false {α κ : Type} (f : α → κ) (items : List (α × Nat))
    (p : κ → Prop) [DecidablePred p] (hf : ∀ x, ¬ p (f x)) :
    Table.itemsWhere (items.map (fun kd => (f kd.1, kd.2))) p = 0 := by
  induction items with
  | nil => simp [Table.itemsWhere]
  | cons hd tl ih =>
    obtain ⟨x, d⟩ := hd
    simp [List.map_cons, Table.itemsWhere, ih, hf x]

theorem bigrams_length (tokens : List Str) : (bigrams tokens).length = tokens.length - 1 := by
  simp [bigrams]

theorem trigrams_length (tokens : List Str) : (trigrams tokens).length = tokens.length - 2 := by
  simp [trigrams]

theorem quadgrams_length (tokens : List Str) :
    (quadgrams tokens).length = tokens.length - 3 := by
  simp [quadgrams]

theorem bigrams_eq_nil_of_short (tokens : List Str) (h : tokens.length ≤ 1) :
    bigrams tokens = [] := by
  unfold bigrams
  have : tokens.length - 1 = 0 := by omega
  simp [this]

theorem trigrams_eq_nil_of_short (tokens : List Str) (h : tokens.length ≤ 2) :
    trigrams tokens = [] := by
  unfold trigrams
  have : tokens.length - 2 = 0 := by omega
  simp [this]

theorem quadgrams_eq_nil_of_short (tokens : List Str) (h : tokens.length ≤ 3) :
    quadgrams tokens = [] := by
  unfold quadgrams
  have : tokens.length - 3 = 0 := by omega
  simp [this]

/-! ## Ordered-dictionary lemmas -/

namespace OD

theorem lookup_removeKey {κ ν : Type} [DecidableEq κ] (d : List (κ × ν)) (k k' : κ) :
    lookup (removeKey d k) k' = if k' = k then none else lookup d k' := by
  induction d with
  | nil => by_cases h : k' = k <;> simp [removeKey, lookup, h]
  | cons e rest ih =>
    by_cases h : e.1 = k
    · rw [show removeKey (e :: rest) k = removeKey rest k by simp [removeKey, h], ih]
      by_cases h' : k' = k
      · simp [h']
      · have he : ¬ e.1 = k' := by
          rw [h]
          exact fun hh => h' hh.symm
        simp [lookup, he, h']
    · rw [show removeKey (e :: rest) k = e :: removeKey rest k by simp [removeKey, h]]
      by_cases h2 : e.1 = k'
      · have hk : ¬ k' = k := fun hh => h (h2.trans hh)
        simp [lookup, h2, hk]
      · simp [lookup, h2, ih]

theorem removeKey_of_lookup_none {κ ν : Type} [DecidableEq κ] (d : List (κ × ν)) (k : κ)
    (h : lookup d k = none) : removeKey d k = d := by
  induction d with
  | nil => simp [removeKey]
  | cons e rest ih =>
    by_cases h0 : e.1 = k
    · simp [lookup, h0] at h
    · simp only [lookup, if_neg h0] at h
      simp [removeKey, h0, ih h]

theorem length_removeKey_le {κ ν : Type} [DecidableEq κ] (d : List (κ × ν)) (k : κ) :
    (removeKey d k).length ≤ d.length := by
  induction d with
  | nil => simp [removeKey]
  | cons e rest ih =>
    by_cases h : e.1 = k <;> simp [removeKey, h] <;> omega

theorem length_removeKey_lt {κ ν : Type} [DecidableEq κ] (d : List (κ × ν)) (k : κ)
    (h : (lookup d k).isSome) : (removeKey d k).length < d.length := by
  induction d with
  | nil => simp [lookup] at h
  | cons e rest ih =>
    by_cases h0 : e.1 = k
    · have := length_removeKey_le rest k
      simp [removeKey, h0]
      omega
    · simp only [lookup, if_neg h0] at h
      simp [removeKey, h0]
      exact ih h

theorem lookup_append_of_none {κ ν : Type} [DecidableEq κ] (d d' : List (κ × ν)) (k : κ)
    (h : lookup d k = none) : lookup (d ++ d') k = lookup d' k := by
  induction d with
  | nil => simp
  | cons e rest ih =>
    by_cases h0 : e.1 = k
    · simp [lookup, h0] at h
    · simp only [lookup, if_neg h0] at h
      simp [lookup, h0, ih h]

theorem removeKey_append {κ ν : Type} [DecidableEq κ] (d d' : List (κ × ν)) (k : κ) :
    removeKey (d ++ d') k = removeKey d k ++ removeKey d' k := by
  induction d with
  | nil => simp [removeKey]
  | cons e rest ih =>
    by_cases h : e.1 = k <;> simp [removeKey, h, ih]

theorem lookup_foldl_removeKey {κ ν : Type} [DecidableEq κ] (ks : List κ)
    (d : List (κ × ν)) (k : κ) :
    lookup (ks.foldl (fun acc kk => removeKey acc kk) d) k
      = if k ∈ ks then none else lookup d k := by
  induction ks generalizing d with
  | nil => simp
  | cons k0 rest ih =>
    have : ((k0 :: rest).foldl (fun acc kk => removeKey acc kk) d)
        = rest.foldl (fun acc kk => removeKey acc kk) (removeKey d k0) := rfl
    rw [this, ih, lookup_removeKey]
    by_cases h1 : k ∈ rest
    · simp [h1]
    · by_cases h2 : k = k0 <;> simp [h1, h2]

theorem mem_chatKeys_chat {ρ ν : Type} (d : List ((Int × ρ) × ν)) (c : Int)
    (k : Int × ρ) (h : k ∈ chatKeys d c) : k.1 = c := by
  induction d with
  | nil => simp [chatKeys] at h
  | cons e rest ih =>
    by_cases h0 : e.1.1 = c
    · simp only [chatKeys, if_pos h0, List.mem_cons] at h
      rcases h with h | h
      · rw [h, h0]
      · exact ih h
    · simp only [chatKeys, if_neg h0] at h
      exact ih h

theorem lookup_none_of_not_mem_chatKeys {ρ ν : Type} [DecidableEq ρ]
    (d : List ((Int × ρ) × ν)) (c : Int) (k : Int × ρ) (hc : k.1 = c)
    (h : ¬ k ∈ chatKeys d c) : lookup d k = none := by
  induction d with
  | nil => simp [lookup]
  | cons e rest ih =>
    by_cases h0 : e.1.1 = c
    · simp only [chatKeys, if_pos h0, List.mem_cons] at h
      push_neg at h
      have hek : ¬ e.1 = k := fun hh => h.1 (hh ▸ rfl)
      simp [lookup, hek, ih h.2]
    · have hek : ¬ e.1 = k := fun hh => h0 (by rw [hh, hc])
      simp only [chatKeys, if_neg h0] at h
      simp [lookup, hek, ih h]

theorem lookup_invalidateOne {ρ ν : Type} [DecidableEq ρ] (d : List ((Int × ρ) × ν))
    (c : Int) (k : Int × ρ) :
    lookup (invalidateOne d c) k = if k.1 = c then none else lookup d k := by
  unfold invalidateOne
  rw [lookup_foldl_removeKey]
  by_cases hmem : k ∈ chatKeys d c
  · simp [hmem, mem_chatKeys_chat d c k hmem]
  · by_cases hc : k.1 = c
    · simp [hmem, hc, lookup_none_of_not_mem_chatKeys d c k hc hmem]
    · simp [hmem, hc]

end OD

/-- C7: `invalidate_chat_cache(chatID)` removes every cached transition entry
keyed to that chat from all three order tiers, while cached entries keyed to
every other chat remain unchanged. -/
theorem invalidate_chat_cache_scoped (g : GenCaches) (chat_id : Int) :
    (∀ k, OD.lookup (invalidate_chat_cache g chat_id).cache3 k
        = if k.1 = chat_id then none else OD.lookup g.cache3 k)
    ∧ (∀ k, OD.lookup (invalidate_chat_cache g chat_id).cache2 k
        = if k.1 = chat_id then none else OD.lookup g.cache2 k)
    ∧ (∀ k, OD.lookup (invalidate_chat_cache g chat_id).cache1 k
        = if k.1 = chat_id then none else OD.lookup g.cache1 k) :=
  ⟨fun k => OD.lookup_invalidateOne g.cache3 chat_id k,
   fun k => OD.lookup_invalidateOne g.cache2 chat_id k,
   fun k => OD.lookup_invalidateOne g.cache1 chat_id k⟩

/-! ## Cache capacity and recency lemmas -/

namespace OD

theorem lookup_map_update {κ ν : Type} [DecidableEq κ] (d : List (κ × ν)) (k : κ) (v : ν)
    (h : (lookup d k).isSome) :
    lookup (d.map (fun e => if e.1 = k then (e.1, v) else e)) k = some v := by
  induction d with
  | nil => simp [lookup] at h
  | cons e rest ih =>
    by_cases h0 : e.1 = k
    · simp [lookup, h0]
    · simp only [lookup, if_neg h0] at h
      simp [lookup, h0, ih h]

theorem lookup_set_self {κ ν : Type} [DecidableEq κ] (d : List (κ × ν)) (k : κ) (v : ν) :
    lookup (set d k v) k = some v := by
  unfold set
  by_cases h : (lookup d k).isSome
  · simp [h, lookup_map_update d k v h]
  · have hnone : lookup d k = none := by
      cases hl : lookup d k
      · rfl
      · simp [hl] at h
    simp [h, lookup_append_of_none d [(k, v)] k hnone, lookup]

theorem length_set_le {κ ν : Type} [DecidableEq κ] (d : List (κ × ν)) (k : κ) (v : ν) :
    (set d k v).length ≤ d.length + 1 := by
  unfold set
  by_cases h : (lookup d k).isSome <;> simp [h]

theorem length_moveToEnd_le {κ ν : Type} [DecidableEq κ] (d : List (κ × ν)) (k : κ) :
    (moveToEnd d k).length ≤ d.length := by
  unfold moveToEnd
  cases hl : lookup d k with
  | none => simp
  | some v =>
    have : (lookup d k).isSome := by simp [hl]
    have hlt := length_removeKey_lt d k this
    simp
    omega

end OD

theorem touch_cache_length {κ : Type} [DecidableEq κ] (limit : Nat) (d : List (κ × Rows))
    (k : κ) (v : Rows) (h : d.length ≤ limit) :
    (touch_cache limit d k v).length ≤ limit := by
  unfold touch_cache
  have h1 := OD.length_set_le d k v
  have h2 := OD.length_moveToEnd_le (OD.set d k v) k
  by_cases hc : limit < (OD.moveToEnd (OD.set d k v) k).length
  · simp only [if_pos hc]
    have := List.length_tail (OD.moveToEnd (OD.set d k v) k)
    omega
  · simp only [if_neg hc]
    omega

theorem touch_cache_evicts_lru {κ : Type} [DecidableEq κ] (limit : Nat)
    (d : List (κ × Rows)) (k : κ) (v : Rows) (hfresh : OD.lookup d k = none)
    (hlen : d.length = limit) (hpos : 0 < limit) :
    touch_cache limit d k v = d.tail ++ [(k, v)] := by
  have hset : OD.set d k v = d ++ [(k, v)] := by
    unfold OD.set
    simp [hfresh]
  have hmove : OD.moveToEnd (OD.set d k v) k = d ++ [(k, v)] := by
    rw [hset]
    unfold OD.moveToEnd
    rw [OD.lookup_append_of_none d [(k, v)] k hfresh]
    simp only [OD.lookup, if_pos rfl]
    rw [OD.removeKey_append, OD.removeKey_of_lookup_none d k hfresh]
    simp [OD.removeKey]
  unfold touch_cache
  rw [hmove]
  have hgt : limit < (d ++ [(k, v)]).length := by simp; omega
  simp only [if_pos hgt]
  cases d with
  | nil => simp at hlen; omega
  | cons e rest => simp

/-- C10: each per-order transition cache stays within `cache_limit` (1024 by
default) across the cache-touching read operations; a fresh insertion at
capacity evicts the least-recently-used (front) entry; a cache hit refreshes
the entry's recency by moving it to the most-recent end. -/
theorem cache_capacity_and_lru :
    defaultGenParams.cache_limit = 1024
    ∧ (∀ (P : GenParams) (db : DBState) (st : GenState) (chat : Int) (w1 w2 w3 : Str),
        st.caches.cache3.length ≤ P.cache_limit →
        ((get3 P db st chat w1 w2 w3).2).caches.cache3.length ≤ P.cache_limit)
    ∧ (∀ (P : GenParams) (db : DBState) (st : GenState) (chat : Int) (w1 w2 : Str),
        st.caches.cache2.length ≤ P.cache_limit →
        ((get2 P db st chat w1 w2).2).caches.cache2.length ≤ P.cache_limit)
    ∧ (∀ (P : GenParams) (db : DBState) (st : GenState) (chat : Int) (w1 : Str),
        st.caches.cache1.length ≤ P.cache_limit →
        ((get1 P db st chat w1).2).caches.cache1.length ≤ P.cache_limit)
    ∧ (∀ (limit : Nat) (d : List ((Int × Str × Str) × Rows)) (k : Int × Str × Str)
        (v : Rows), OD.lookup d k = none → d.length = limit → 0 < limit →
        touch_cache limit d k v = d.tail ++ [(k, v)])
    ∧ (∀ (P : GenParams) (db : DBState) (st : GenState) (chat : Int) (w1 w2 w3 : Str)
        (rows : Rows), OD.lookup st.caches.cache3 (chat, w1, w2, w3) = some rows →
        get3 P db st chat w1 w2 w3 = (rows, { st with caches := { st.caches with
          cache3 := OD.moveToEnd st.caches.cache3 (chat, w1, w2, w3) } }))
    ∧ (∀ (P : GenParams) (db : DBState) (st : GenState) (chat : Int) (w1 w2 : Str)
        (rows : Rows), OD.lookup st.caches.cache2 (chat, w1, w2) = some rows →
        get2 P db st chat w1 w2 = (rows, { st with caches := { st.caches with
          cache2 := OD.moveToEnd st.caches.cache2 (chat, w1, w2) } }))
    ∧ (∀ (P : GenParams) (db : DBState) (st : GenState) (chat : Int) (w1 : Str)
        (rows : Rows), OD.lookup st.caches.cache1 (chat, w1) = some rows →
        get1 P db st chat w1 = (rows, { st with caches := { st.caches with
          cache1 := OD.moveToEnd st.caches.cache1 (chat, w1) } })) := by
  refine ⟨rfl, ?_, ?_, ?_, ?_, ?_, ?_, ?_⟩
  · intro P db st chat w1 w2 w3 h
    cases hl : OD.lookup st.caches.cache3 (chat, w1, w2, w3) with
    | some rows =>
      simp only [get3, hl]
      exact le_trans (OD.length_moveToEnd_le st.caches.cache3 (chat, w1, w2, w3)) h
    | none =>
      simp only [get3, hl]
      exact touch_cache_length P.cache_limit st.caches.cache3 (chat, w1, w2, w3)
        (get_transitions3 db chat w1 w2 w3) h
  · intro P db st chat w1 w2 h
    cases hl : OD.lookup st.caches.cache2 (chat, w1, w2) with
    | some rows =>
      simp only [get2, hl]
      exact le_trans (OD.length_moveToEnd_le st.caches.cache2 (chat, w1, w2)) h
    | none =>
      simp only [get2, hl]
      exact touch_cache_length P.cache_limit st.caches.cache2 (chat, w1, w2)
        (get_transitions db chat w1 w2) h
  · intro P db st chat w1 h
    cases hl : OD.lookup st.caches.cache1 (chat, w1) with
    | some rows =>
      simp only [get1, hl]
      exact le_trans (OD.length_moveToEnd_le st.caches.cache1 (chat, w1)) h
    | none =>
      simp only [get1, hl]
      exact touch_cache_length P.cache_limit st.caches.cache1 (chat, w1)
        (get_transitions1 db chat w1) h
  · intro limit d k v h1 h2 h3
    exact touch_cache_evicts_lru limit d k v h1 h2 h3
  · intro P db st chat w1 w2 w3 rows h
    simp [get3, h]
  · intro P db st chat w1 w2 rows h
    simp [get2, h]
  · intro P db st chat w1 rows h
    simp [get1, h]

/-- Witness for C10: the eviction clause applied at a one-entry cache of
capacity 1. -/
theorem cache_capacity_and_lru_witness :
    touch_cache 1 [(((0 : Int), ([] : Str), ([] : Str)), ([] : Rows))] (1, [], []) []
      = [(((1 : Int), ([] : Str), ([] : Str)), ([] : Rows))] := by
  have h := cache_capacity_and_lru.2.2.2.2.1 1
    [(((0 : Int), ([] : Str), ([] : Str)), ([] : Rows))] (1, [], []) []
    (by decide) (by decide) (by decide)
  simpa using h

/-! ## Ingest accounting (C1, C2) -/

theorem vol_case (a b : Nat) :
    (if 0 < a then a else b) = if 0 < a then a else if 0 < b then b else 0 := by
  by_cases h : 0 < a
  · simp [h]
  · by_cases h2 : 0 < b <;> simp [h, h2] <;> omega

/-- C2: the effective learned volume of a chat is the sum of its order-3
transition counts when positive, else the sum of its order-2 transition
counts, else 0; `get_chat_token_volume` computes it, and
`save_message_and_update_model` returns it for the post-update state. -/
theorem effective_volume_computation (s : DBState) (chat author : Int) (raw : Str)
    (tokens : List Str) :
    get_chat_token_volume s chat = effectiveVolumeSpec s chat
    ∧ (save_message_and_update_model s chat author raw tokens).2
        = effectiveVolumeSpec (save_message_and_update_model s chat author raw tokens).1
            chat := by
  constructor
  · unfold get_chat_token_volume effectiveVolumeSpec
    exact vol_case _ _
  · simp only [save_message_and_update_model, effectiveVolumeSpec]
    exact vol_case _ _

/-- C1: ingesting a token sequence of length `L` adds, for the ingested chat,
`max(0, L-1)` / `max(0, L-2)` / `max(0, L-3)` to the order-1/2/3 transition
totals, bumps each individual transition key by the number of occurrences of
its n-gram in the message, and bumps exactly the one start(2) key when
`L ≥ 2` and the one start(3) key when `L ≥ 3`, each by 1. -/
theorem ingest_counter_increments (s : DBState) (chat author : Int) (raw : Str)
    (tokens : List Str) :
    (∀ (c : Int) (a b : Str),
        ((save_message_and_update_model s chat author raw tokens).1).transitions1.cnt (c, a, b)
          = s.transitions1.cnt (c, a, b)
            + if c = chat then occ (bigrams tokens) (a, b) else 0)
    ∧ (∀ (c : Int) (a b d : Str),
        ((save_message_and_update_model s chat author raw tokens).1).transitions.cnt (c, a, b, d)
          = s.transitions.cnt (c, a, b, d)
            + if c = chat then occ (trigrams tokens) (a, b, d) else 0)
    ∧ (∀ (c : Int) (a b d e : Str),
        ((save_message_and_update_model s chat author raw tokens).1).transitions3.cnt
            (c, a, b, d, e)
          = s.transitions3.cnt (c, a, b, d, e)
            + if c = chat then occ (quadgrams tokens) (a, b, d, e) else 0)
    ∧ ((save_message_and_update_model s chat author raw tokens).1).transitions1.sumWhere
          (fun k => k.1 = chat)
        = s.transitions1.sumWhere (fun k => k.1 = chat) + (tokens.length - 1)
    ∧ ((save_message_and_update_model s chat author raw tokens).1).transitions.sumWhere
          (fun k => k.1 = chat)
        = s.transitions.sumWhere (fun k => k.1 = chat) + (tokens.length - 2)
    ∧ ((save_message_and_update_model s chat author raw tokens).1).transitions3.sumWhere
          (fun k => k.1 = chat)
        = s.transitions3.sumWhere (fun k => k.1 = chat) + (tokens.length - 3)
    ∧ (∀ (c : Int) (a b : Str),
        ((save_message_and_update_model s chat author raw tokens).1).starts.cnt (c, a, b)
          = s.starts.cnt (c, a, b)
            + if 2 ≤ tokens.length ∧ c = chat ∧ a = tokens.getD 0 [] ∧ b = tokens.getD 1 []
              then 1 else 0)
    ∧ (∀ (c : Int) (a b d : Str),
        ((save_message_and_update_model s chat author raw tokens).1).starts3.cnt (c, a, b, d)
          = s.starts3.cnt (c, a, b, d)
            + if 3 ≤ tokens.length ∧ c = chat ∧ a = tokens.getD 0 [] ∧ b = tokens.getD 1 []
                ∧ d = tokens.getD 2 []
              then 1 else 0)
    ∧ ((save_message_and_update_model s chat author raw tokens).1).starts.sumWhere
          (fun k => k.1 = chat)
        = s.starts.sumWhere (fun k => k.1 = chat)
            + (if 2 ≤ tokens.length then 1 else 0)
    ∧ ((save_message_and_update_model s chat author raw tokens).1).starts3.sumWhere
          (fun k => k.1 = chat)
        = s.starts3.sumWhere (fun k => k.1 = chat)
            + (if 3 ≤ tokens.length then 1 else 0) := by
  refine ⟨?_, ?_, ?_, ?_, ?_, ?_, ?_, ?_, ?_, ?_⟩
  · intro c a b
    simp only [save_message_and_update_model]
    rw [Table.cnt_upsertMany]
    by_cases hL : 2 ≤ tokens.length
    · simp only [if_pos hL]
      by_cases hc : c = chat
      · subst hc
        have hf : ∀ x : Str × Str,
            ((c, x.1, x.2) : Int × Str × Str) = (c, a, b) ↔ x = (a, b) := by
          intro x
          constructor
          · intro h
            simp only [Prod.mk.injEq] at h
            exact Prod.ext h.2.1 h.2.2
          · intro h
            rw [h]
        have h1 := itemsFor_map (fun x : Str × Str => ((c, x.1, x.2) : Int × Str × Str))
          (counterItems (bigrams tokens)) (c, a, b) (a, b) hf
        rw [itemsFor_counterItems] at h1
        simp only [if_pos rfl]
        exact congrArg (s.transitions1.cnt (c, a, b) + ·) h1
      · have hf : ∀ x : Str × Str, ¬ ((chat, x.1, x.2) : Int × Str × Str) = (c, a, b) := by
          intro x h
          simp only [Prod.mk.injEq] at h
          exact hc h.1.symm
        have h1 := itemsFor_map_none (fun x : Str × Str => ((chat, x.1, x.2) : Int × Str × Str))
          (counterItems (bigrams tokens)) (c, a, b) hf
        simp only [if_neg hc]
        exact congrArg (s.transitions1.cnt (c, a, b) + ·) h1
    · have hb : bigrams tokens = [] := bigrams_eq_nil_of_short tokens (by omega)
      simp only [if_neg hL, List.map_nil, hb, occ]
      by_cases hc : c = chat <;> simp [hc, Table.itemsFor]
  · intro c a b d
    simp only [save_message_and_update_model]
    rw [Table.cnt_upsertMany]
    by_cases hL : 3 ≤ tokens.length
    · simp only [if_pos hL]
      by_cases hc : c = chat
      · subst hc
        have hf : ∀ x : Str × Str × Str,
            ((c, x.1, x.2.1, x.2.2) : Int × Str × Str × Str) = (c, a, b, d) ↔ x = (a, b, d) := by
          intro x
          constructor
          · intro h
            simp only [Prod.mk.injEq] at h
            exact Prod.ext h.2.1 (Prod.ext h.2.2.1 h.2.2.2)
          · intro h
            rw [h]
        have h1 := itemsFor_map
          (fun x : Str × Str × Str => ((c, x.1, x.2.1, x.2.2) : Int × Str × Str × Str))
          (counterItems (trigrams tokens)) (c, a, b, d) (a, b, d) hf
        rw [itemsFor_counterItems] at h1
        simp only [if_pos rfl]
        exact congrArg (s.transitions.cnt (c, a, b, d) + ·) h1
      · have hf : ∀ x : Str × Str × Str,
            ¬ ((chat, x.1, x.2.1, x.2.2) : Int × Str × Str × Str) = (c, a, b, d) := by
          intro x h
          simp only [Prod.mk.injEq] at h
          exact hc h.1.symm
        have h1 := itemsFor_map_none
          (fun x : Str × Str × Str => ((chat, x.1, x.2.1, x.2.2) : Int × Str × Str × Str))
          (counterItems (trigrams tokens)) (c, a, b, d) hf
        simp only [if_neg hc]
        exact congrArg (s.transitions.cnt (c, a, b, d) + ·) h1
    · have hb : trigrams tokens = [] := trigrams_eq_nil_of_short tokens (by omega)
      simp only [if_neg hL, List.map_nil, hb, occ]
      by_cases hc : c = chat <;> simp [hc, Table.itemsFor]
  · intro c a b d e
    simp only [save_message_and_update_model]
    rw [Table.cnt_upsertMany]
    by_cases hL : 4 ≤ tokens.length
    · simp only [if_pos hL]
      by_cases hc : c = chat
      · subst hc
        have hf : ∀ x : Str × Str × Str × Str,
            ((c, x.1, x.2.1, x.2.2.1, x.2.2.2) : Int × Str × Str × Str × Str) = (c, a, b, d, e)
              ↔ x = (a, b, d, e) := by
          intro x
          constructor
          · intro h
            simp only [Prod.mk.injEq] at h
            exact Prod.ext h.2.1 (Prod.ext h.2.2.1 (Prod.ext h.2.2.2.1 h.2.2.2.2))
          · intro h
            rw [h]
        have h1 := itemsFor_map
          (fun x : Str × Str × Str × Str =>
            ((c, x.1, x.2.1, x.2.2.1, x.2.2.2) : Int × Str × Str × Str × Str))
          (counterItems (quadgrams tokens)) (c, a, b, d, e) (a, b, d, e) hf
        rw [itemsFor_counterItems] at h1
        simp only [if_pos rfl]
        exact congrArg (s.transitions3.cnt (c, a, b, d, e) + ·) h1
      · have hf : ∀ x : Str × Str × Str × Str,
            ¬ ((chat, x.1, x.2.1, x.2.2.1, x.2.2.2) : Int × Str × Str × Str × Str)
              = (c, a, b, d, e) := by
          intro x h
          simp only [Prod.mk.injEq] at h
          exact hc h.1.symm
        have h1 := itemsFor_map_none
          (fun x : Str × Str × Str × Str =>
            ((chat, x.1, x.2.1, x.2.2.1, x.2.2.2) : Int × Str × Str × Str × Str))
          (counterItems (quadgrams tokens)) (c, a, b, d, e) hf
        simp only [if_neg hc]
        exact congrArg (s.transitions3.cnt (c, a, b, d, e) + ·) h1
    · have hb : quadgrams tokens = [] := quadgrams_eq_nil_of_short tokens (by omega)
      simp only [if_neg hL, List.map_nil, hb, occ]
      by_cases hc : c = chat <;> simp [hc, Table.itemsFor]
  · simp only [save_message_and_update_model]
    rw [Table.sumWhere_upsertMany]
    by_cases hL : 2 ≤ tokens.length
    · simp only [if_pos hL]
      have h1 := itemsWhere_map_true (fun x : Str × Str => ((chat, x.1, x.2) : Int × Str × Str))
        (counterItems (bigrams tokens)) (fun k => k.1 = chat) (fun x => rfl)
      rw [itemsWhere_counterItems_true, bigrams_length] at h1
      exact congrArg (s.transitions1.sumWhere (fun k => k.1 = chat) + ·) h1
    · have hlen : tokens.length - 1 = 0 := by omega
      simp [if_neg hL, Table.itemsWhere, hlen]
  · simp only [save_message_and_update_model]
    rw [Table.sumWhere_upsertMany]
    by_cases hL : 3 ≤ tokens.length
    · simp only [if_pos hL]
      have h1 := itemsWhere_map_true
        (fun x : Str × Str × Str => ((chat, x.1, x.2.1, x.2.2) : Int × Str × Str × Str))
        (counterItems (trigrams tokens)) (fun k => k.1 = chat) (fun x => rfl)
      rw [itemsWhere_counterItems_true, trigrams_length] at h1
      exact congrArg (s.transitions.sumWhere (fun k => k.1 = chat) + ·) h1
    · have hlen : tokens.length - 2 = 0 := by omega
      simp [if_neg hL, Table.itemsWhere, hlen]
  · simp only [save_message_and_update_model]
    rw [Table.sumWhere_upsertMany]
    by_cases hL : 4 ≤ tokens.length
    · simp only [if_pos hL]
      have h1 := itemsWhere_map_true
        (fun x : Str × Str × Str × Str =>
          ((chat, x.1, x.2.1, x.2.2.1, x.2.2.2) : Int × Str × Str × Str × Str))
        (counterItems (quadgrams tokens)) (fun k => k.1 = chat) (fun x => rfl)
      rw [itemsWhere_counterItems_true, quadgrams_length] at h1
      exact congrArg (s.transitions3.sumWhere (fun k => k.1 = chat) + ·) h1
    · have hlen : tokens.length - 3 = 0 := by omega
      simp [if_neg hL, Table.itemsWhere, hlen]
  · intro c a b
    simp only [save_message_and_update_model]
    by_cases hL : 2 ≤ tokens.length
    · simp only [if_pos hL]
      rw [Table.cnt_upsert]
      by_cases hk : ((c, a, b) : Int × Str × Str)
          = (chat, tokens.getD 0 [], tokens.getD 1 [])
      · simp only [Prod.mk.injEq] at hk
        simp [hL, hk.1, hk.2.1, hk.2.2]
      · have : ¬ (2 ≤ tokens.length ∧ c = chat ∧ a = tokens.getD 0 []
            ∧ b = tokens.getD 1 []) := by
          intro hcon
          exact hk (by simp [Prod.mk.injEq, hcon.2.1, hcon.2.2.1, hcon.2.2.2])
        simp [hk, this, hL]
    · simp only [if_neg hL]
      simp
      intro h
      exact absurd h hL
  · intro c a b d
    simp only [save_message_and_update_model]
    by_cases hL : 3 ≤ tokens.length
    · simp only [if_pos hL]
      rw [Table.cnt_upsert]
      by_cases hk : ((c, a, b, d) : Int × Str × Str × Str)
          = (chat, tokens.getD 0 [], tokens.getD 1 [], tokens.getD 2 [])
      · simp only [Prod.mk.injEq] at hk
        simp [hL, hk.1, hk.2.1, hk.2.2.1, hk.2.2.2]
      · have : ¬ (3 ≤ tokens.length ∧ c = chat ∧ a = tokens.getD 0 []
            ∧ b = tokens.getD 1 [] ∧ d = tokens.getD 2 []) := by
          intro hcon
          exact hk (by simp [Prod.mk.injEq, hcon.2.1, hcon.2.2.1, hcon.2.2.2.1, hcon.2.2.2.2])
        simp [hk, this, hL]
    · simp only [if_neg hL]
      simp
      intro h
      exact absurd h hL
  · simp only [save_message_and_update_model]
    by_cases hL : 2 ≤ tokens.length
    · simp only [if_pos hL]
      rw [Table.sumWhere_upsert]
      simp
    · simp [if_neg hL]
  · simp only [save_message_and_update_model]
    by_cases hL : 3 ≤ tokens.length
    · simp only [if_pos hL]
      rw [Table.sumWhere_upsert]
      simp
    · simp [if_neg hL]

/-! ## Detokenization (C8) -/

/-- A string with no whitespace at either edge (strip-invariance condition). -/
def noEdgeWS (s : Str) : Prop :=
  (∀ c ∈ s.take 1, ¬ c.isWhitespace) ∧ (∀ c ∈ s.reverse.take 1, ¬ c.isWhitespace)

theorem dropWhile_eq_self_of_head {s : Str} (h : ∀ c ∈ s.take 1, ¬ c.isWhitespace) :
    s.dropWhile Char.isWhitespace = s := by
  cases s with
  | nil => rfl
  | cons c rest =>
    have hc : ¬ c.isWhitespace := h c (by simp)
    simp [List.dropWhile, hc]

theorem pyRstrip_eq_self {s : Str} (h : ∀ c ∈ s.reverse.take 1, ¬ c.isWhitespace) :
    pyRstrip s = s := by
  unfold pyRstrip
  rw [dropWhile_eq_self_of_head (by simpa using h)]
  simp

theorem pyStrip_eq_self {s : Str} (h : noEdgeWS s) : pyStrip s = s := by
  unfold pyStrip
  rw [dropWhile_eq_self_of_head h.1, pyRstrip_eq_self h.2]

theorem take1_append_left {α : Type} (a b : List α) (h : ¬ a = []) :
    (a ++ b).take 1 = a.take 1 := by
  cases a with
  | nil => exact absurd rfl h
  | cons x rest => simp

/-- The reversed-parts construction of `detokenize` joins to the claim's flat
concatenation, provided no token is empty. -/
theorem buildParts_join_eq (tokens : List Str) (htok : ∀ t ∈ tokens, ¬ t = []) :
    ∀ acc : List Str, (∀ p ∈ acc, ¬ p = []) →
      (List.foldl
          (fun acc token =>
            match acc with
            | [] => [token]
            | last :: rest =>
              if token ∈ PUNCT_SET then (last ++ token) :: rest
              else (' ' :: token) :: last :: rest)
          acc tokens).reverse.join
        = List.foldl
            (fun acc token =>
              if acc = [] then token
              else if token ∈ PUNCT_SET then acc ++ token
              else acc ++ ' ' :: token)
            acc.reverse.join tokens
      ∧ ∀ p ∈ List.foldl
          (fun acc token =>
            match acc with
            | [] => [token]
            | last :: rest =>
              if token ∈ PUNCT_SET then (last ++ token) :: rest
              else (' ' :: token) :: last :: rest)
          acc tokens, ¬ p = [] := by
  induction tokens with
  | nil => intro acc hacc; exact ⟨rfl, hacc⟩
  | cons t rest ih =>
    intro acc hacc
    have ht : ¬ t = [] := htok t (by simp)
    have htok' : ∀ t' ∈ rest, ¬ t' = [] := fun t' h' => htok t' (by simp [h'])
    have hstep : ∀ p ∈ (match acc with
        | [] => [t]
        | last :: rest' =>
          if t ∈ PUNCT_SET then (last ++ t) :: rest'
          else (' ' :: t) :: last :: rest'), ¬ p = [] := by
      cases acc with
      | nil =>
        intro p hp
        simp at hp
        rw [hp]
        exact ht
      | cons last rest' =>
        by_cases hpunct : t ∈ PUNCT_SET
        · intro p hp
          simp [hpunct] at hp
          rcases hp with hp | hp
          · rw [hp]
            simp [hacc last (by simp)]
          · exact hacc p (by simp [hp])
        · intro p hp
          simp [hpunct] at hp
          rcases hp with hp | hp | hp
          · rw [hp]
            simp
          · rw [hp]
            exact hacc last (by simp)
          · exact hacc p (by simp [hp])
    have hflat : (match acc with
        | [] => [t]
        | last :: rest' =>
          if t ∈ PUNCT_SET then (last ++ t) :: rest'
          else (' ' :: t) :: last :: rest').reverse.join
        = (if acc.reverse.join = [] then t
           else if t ∈ PUNCT_SET then acc.reverse.join ++ t
           else acc.reverse.join ++ ' ' :: t) := by
      cases acc with
      | nil => simp
      | cons last rest' =>
        have hlast : ¬ last = [] := hacc last (by simp)
        have hjoin : (last :: rest').reverse.join = rest'.reverse.join ++ last := by simp
        have hne : ¬ (last :: rest').reverse.join = [] := by
          intro h
          rw [hjoin] at h
          exact hlast (List.append_eq_nil.mp h).2
        rw [show (match last :: rest' with
            | [] => [t]
            | last :: rest' =>
              if t ∈ PUNCT_SET then (last ++ t) :: rest'
              else (' ' :: t) :: last :: rest')
            = (if t ∈ PUNCT_SET then (last ++ t) :: rest'
               else (' ' :: t) :: last :: rest') from rfl]
        rw [if_neg hne]
        by_cases hpunct : t ∈ PUNCT_SET
        · rw [if_pos hpunct, if_pos hpunct]
          simp
        · rw [if_neg hpunct, if_neg hpunct]
          simp
    have := ih htok' _ hstep
    refine ⟨?_, this.2⟩
    rw [show List.foldl _ acc (t :: rest) = List.foldl
        (fun acc token =>
          match acc with
          | [] => [token]
          | last :: rest' =>
            if token ∈ PUNCT_SET then (last ++ token) :: rest'
            else (' ' :: token) :: last :: rest') _ rest from rfl]
    rw [this.1, hflat]
    rfl

/-- Strip-invariance of the claim's flat concatenation for whitespace-free
nonempty tokens. -/
theorem claimFold_noEdgeWS (tokens : List Str)
    (htok : ∀ t ∈ tokens, ¬ t = [] ∧ ∀ c ∈ t, ¬ c.isWhitespace) :
    ∀ acc : Str, noEdgeWS acc →
      noEdgeWS (List.foldl
        (fun acc token =>
          if acc = [] then token
          else if token ∈ PUNCT_SET then acc ++ token
          else acc ++ ' ' :: token)
        acc tokens) := by
  induction tokens with
  | nil => intro acc hacc; exact hacc
  | cons t rest ih =>
    intro acc hacc
    have ht := htok t (by simp)
    have htok' : ∀ t' ∈ rest, ¬ t' = [] ∧ ∀ c ∈ t', ¬ c.isWhitespace :=
      fun t' h' => htok t' (by simp [h'])
    apply ih htok'
    by_cases hempty : acc = []
    · simp only [hempty, if_pos rfl]
      exact ⟨fun c hc => ht.2 c (List.mem_of_mem_take hc),
             fun c hc => ht.2 c (List.mem_reverse.mp (List.mem_of_mem_take hc))⟩
    · by_cases hpunct : t ∈ PUNCT_SET
      · simp only [if_neg hempty, if_pos hpunct]
        constructor
        · rw [take1_append_left acc t hempty]
          exact hacc.1
        · rw [List.reverse_append, take1_append_left t.reverse acc.reverse
            (by simpa using ht.1)]
          exact fun c hc => ht.2 c (List.mem_reverse.mp (List.mem_of_mem_take hc))
      · simp only [if_neg hempty, if_neg hpunct]
        constructor
        · rw [take1_append_left acc (' ' :: t) hempty]
          exact hacc.1
        · rw [List.reverse_append, take1_append_left (' ' :: t).reverse acc.reverse
            (by simp)]
          have : (' ' :: t).reverse = t.reverse ++ [' '] := by simp
          rw [this, take1_append_left t.reverse [' '] (by simpa using ht.1)]
          exact fun c hc => ht.2 c (List.mem_reverse.mp (List.mem_of_mem_take hc))

/-- C8 (counterexample): the claimed pipeline — concatenate, plain-slice to
the budget, strip trailing whitespace only — does not match `detokenize` on
every token list: `detokenize` first strips *leading* whitespace too, so the
token `" a"` yields `"a"` from the code but `" a"` from the claimed pipeline. -/
theorem detokenize_claim_counterexample :
    ¬ ∀ (tokens : List Str) (max_chars : Nat),
        detokenize tokens max_chars = detokenizeClaim tokens max_chars := by
  intro h
  have hx := h [str " a"] 10
  revert hx
  decide

/-- C8 (amended): for genuine word/punctuation tokens — nonempty and free of
whitespace — `detokenize` is exactly the claimed pipeline: concatenate word
tokens with a single leading space, attach punctuation with no space,
plain-slice to the character budget, strip trailing whitespace; in
particular the Russian example detokenizes as claimed. (On arbitrary token
lists the code additionally strips leading whitespace first.) -/
theorem detokenize_matches_claim :
    (∀ (tokens : List Str) (max_chars : Nat),
      (∀ t ∈ tokens, ¬ t = [] ∧ ∀ c ∈ t, ¬ c.isWhitespace) →
      detokenize tokens max_chars = detokenizeClaim tokens max_chars)
    ∧ detokenize [str "Привет", str ",", str "мир", str "!", str "Как", str "дела",
        str "?"] 100 = str "Привет, мир! Как дела?" := by
  constructor
  · intro tokens max_chars htok
    unfold detokenize detokenizeClaim buildPartsRev
    by_cases hnil : tokens = []
    · simp [hnil, pyRstrip]
    · simp only [if_neg hnil]
      have hjoin := (buildParts_join_eq tokens (fun t h => (htok t h).1) []
        (by simp)).1
      have hedge := claimFold_noEdgeWS tokens htok [] (by constructor <;> simp)
      simp only [List.reverse_nil, List.join_nil] at hjoin
      rw [hjoin, pyStrip_eq_self hedge]
      set T := List.foldl
        (fun acc token =>
          if acc = [] then token
          else if token ∈ PUNCT_SET then acc ++ token
          else acc ++ ' ' :: token) [] tokens with hT
      by_cases hlen : max_chars < T.length
      · simp [hlen]
      · have htake : T.take max_chars = T := List.take_of_length_le (by omega)
        simp only [if_neg hlen, htake, pyRstrip_eq_self hedge.2]
  · decide

/-- Witness for C8: the amended equality applied to the concrete token list
`["ab", "!"]` with budget 10. -/
theorem detokenize_matches_claim_witness :
    detokenize [str "ab", str "!"] 10 = detokenizeClaim [str "ab", str "!"] 10 :=
  detokenize_matches_claim.1 [str "ab", str "!"] 10 (by decide)

/-! ## Sampler totality (towards C9) -/

theorem get_mod_isSome {α : Type} (l : List α) (n : Nat) (h : ¬ l = []) :
    (l.get? (n % l.length)).isSome := by
  have hpos : 0 < l.length := List.length_pos.mpr h
  have hlt : n % l.length < l.length := Nat.mod_lt _ hpos
  cases hg : l.get? (n % l.length) with
  | none => exact absurd (List.get?_eq_none.mp hg) (by omega)
  | some x => rfl

theorem weighted_next_choice_isSome (o : Oracle) (st : GenState)
    (items : List (Str × Nat)) (explore power : ℚ) (h : ¬ items = []) :
    ((weighted_next_choice o st items explore power).1).isSome := by
  unfold weighted_next_choice
  exact get_mod_isSome _ _ (by simpa using h)

theorem weighted_next_choice_mem (o : Oracle) (st : GenState)
    (items : List (Str × Nat)) (explore power : ℚ) (w : Str)
    (h : (weighted_next_choice o st items explore power).1 = some w) :
    w ∈ items.map (fun it => it.1) := by
  unfold weighted_next_choice at h
  exact List.get?_mem h

theorem weighted_start2_choice_isSome (o : Oracle) (st : GenState)
    (items : List (Str × Str × Nat)) (explore power : ℚ) (h : ¬ items = []) :
    ((weighted_start2_choice o st items explore power).1).isSome := by
  unfold weighted_start2_choice
  exact get_mod_isSome _ _ (by simpa using h)

theorem weighted_start2_choice_mem (o : Oracle) (st : GenState)
    (items : List (Str × Str × Nat)) (explore power : ℚ) (p : Str × Str)
    (h : (weighted_start2_choice o st items explore power).1 = some p) :
    p ∈ items.map (fun it => (it.1, it.2.1)) := by
  unfold weighted_start2_choice at h
  exact List.get?_mem h

theorem weighted_start3_choice_isSome (o : Oracle) (st : GenState)
    (items : List (Str × Str × Str × Nat)) (explore power : ℚ) (h : ¬ items = []) :
    ((weighted_start3_choice o st items explore power).1).isSome := by
  unfold weighted_start3_choice
  exact get_mod_isSome _ _ (by simpa using h)

theorem weighted_start3_choice_mem (o : Oracle) (st : GenState)
    (items : List (Str × Str × Str × Nat)) (explore power : ℚ) (t : Str × Str × Str)
    (h : (weighted_start3_choice o st items explore power).1 = some t) :
    t ∈ items.map (fun it => (it.1, it.2.1, it.2.2.1)) := by
  unfold weighted_start3_choice at h
  exact List.get?_mem h

/-! ## The generator never raises for absence of data (towards C9) -/

theorem sample_match_ne_failed (o : Oracle) (st : GenState) (pool : List (Str × Nat))
    (ne np : ℚ) (i2 i1 : Bool) (h : ¬ pool = []) :
    ¬ (match (weighted_next_choice o st pool ne np).1 with
       | none => (StepOut.failed, (⟨i2, i1⟩ : StepInfo), (weighted_next_choice o st pool ne np).2)
       | some w4 => (StepOut.extended w4, (⟨i2, i1⟩ : StepInfo),
           (weighted_next_choice o st pool ne np).2)).1
      = StepOut.failed := by
  cases hw : (weighted_next_choice o st pool ne np).1 with
  | none =>
    have hs := weighted_next_choice_isSome o st pool ne np h
    rw [hw] at hs
    simp at hs
  | some w4 => simp [hw]

theorem sample_match_start_ne_failed (o : Oracle) (st : GenState) (pool : List (Str × Nat))
    (ne np : ℚ) (w1 w2 : Str) (h : ¬ pool = []) :
    ¬ (match (weighted_next_choice o st pool ne np).1 with
       | none => (StartRes.failed, (weighted_next_choice o st pool ne np).2)
       | some w3 => (StartRes.ok w1 w2 w3, (weighted_next_choice o st pool ne np).2)).1
      = StartRes.failed := by
  cases hw : (weighted_next_choice o st pool ne np).1 with
  | none =>
    have hs := weighted_next_choice_isSome o st pool ne np h
    rw [hw] at hs
    simp at hs
  | some w3 => simp [hw]

theorem generate_tiers_not_failed (P : GenParams) (db : DBState) (o : Oracle)
    (chat_id : Int) (order : Int) (enable_backoff : Bool) (backoff_min_order : Int)
    (next_explore next_power : ℚ) (w1 w2 w3 : Str) (visited : List (Str × Str × Str))
    (st : GenState) :
    ¬ (generate_tiers P db o chat_id order enable_backoff backoff_min_order
        next_explore next_power w1 w2 w3 visited st).1 = StepOut.failed := by
  intro hfail
  simp only [generate_tiers] at hfail
  by_cases h3 : 3 ≤ order
  · rw [show (if 3 ≤ order then get3 P db st chat_id w1 w2 w3 else ([], st))
        = get3 P db st chat_id w1 w2 w3 from if_pos h3] at hfail
    by_cases hp3 : (get3 P db st chat_id w1 w2 w3).1 = []
    · simp [hp3, h3] at hfail
      by_cases hb : enable_backoff = false
      · simp [hb] at hfail
      · simp [hb] at hfail
        by_cases hp2 : (get2 P db (get3 P db st chat_id w1 w2 w3).2 chat_id w2 w3).1 = []
        · simp [hp2] at hfail
          by_cases hm : 1 < backoff_min_order
          · simp [hm] at hfail
          · simp [hm] at hfail
            by_cases hp1 : (get1 P db
                (get2 P db (get3 P db st chat_id w1 w2 w3).2 chat_id w2 w3).2
                chat_id w3).1 = []
            · simp [hp1] at hfail
            · simp [hp1] at hfail
              revert hfail
              apply sample_match_ne_failed
              exact hp1
        · simp [hp2] at hfail
          revert hfail
          apply sample_match_ne_failed
          exact hp2
    · simp [hp3, h3] at hfail
      revert hfail
      apply sample_match_ne_failed
      split
      · exact hp3
      · rename_i hf
        simpa using hf
  · simp [h3] at hfail
    by_cases hp2 : (get2 P db st chat_id w2 w3).1 = []
    · simp [hp2] at hfail
      by_cases hbm : enable_backoff = false ∨ 1 < backoff_min_order
      · simp [hbm] at hfail
      · simp [hbm] at hfail
        by_cases hp1 : (get1 P db (get2 P db st chat_id w2 w3).2 chat_id w3).1 = []
        · simp [hp1] at hfail
        · simp [hp1] at hfail
          revert hfail
          apply sample_match_ne_failed
          exact hp1
    · simp [hp2] at hfail
      revert hfail
      apply sample_match_ne_failed
      exact hp2

theorem generate_step_not_failed (P : GenParams) (db : DBState) (o : Oracle)
    (chat_id : Int) (starts3 : List (Str × Str × Str × Nat)) (order : Int)
    (enable_backoff : Bool) (backoff_min_order : Int)
    (jump_probability next_explore next_power start_explore start_power : ℚ)
    (w1 w2 w3 : Str) (generated : List Str) (visited : List (Str × Str × Str))
    (st : GenState) :
    ¬ (generate_step P db o chat_id starts3 order enable_backoff backoff_min_order
        jump_probability next_explore next_power start_explore start_power
        w1 w2 w3 generated visited st).1 = StepOut.failed := by
  intro hfail
  simp only [generate_step] at hfail
  by_cases hlen : 8 < generated.length
  · simp only [if_pos hlen] at hfail
    by_cases hjump : (randomFloat o st).1 < jump_probability ∧ ¬ starts3 = [] ∧ 3 ≤ order
    · rw [if_pos hjump] at hfail
      cases hw : (weighted_start3_choice o (randomFloat o st).2 starts3
          start_explore start_power).1 with
      | none =>
        have hs := weighted_start3_choice_isSome o (randomFloat o st).2 starts3
          start_explore start_power hjump.2.1
        rw [hw] at hs
        simp at hs
      | some t =>
        rw [hw] at hfail
        simp at hfail
    · rw [if_neg hjump] at hfail
      exact generate_tiers_not_failed P db o chat_id order enable_backoff
        backoff_min_order next_explore next_power w1 w2 w3 visited (randomFloat o st).2 hfail
  · simp only [if_neg hlen] at hfail
    exact generate_tiers_not_failed P db o chat_id order enable_backoff
      backoff_min_order next_explore next_power w1 w2 w3 visited st hfail

theorem start_from_model_not_failed (P : GenParams) (db : DBState) (o : Oracle)
    (chat_id : Int) (starts3 : List (Str × Str × Str × Nat))
    (starts2 : List (Str × Str × Nat))
    (next_explore next_power start_explore start_power : ℚ) (st : GenState) :
    ¬ (start_from_model P db o chat_id starts3 starts2
        next_explore next_power start_explore start_power st).1 = StartRes.failed := by
  intro hfail
  simp only [start_from_model] at hfail
  by_cases hs3 : starts3 = []
  · simp only [hs3] at hfail
    simp at hfail
    by_cases hs2 : starts2 = []
    · simp [hs2] at hfail
    · simp only [hs2] at hfail
      simp at hfail
      cases hw : (weighted_start2_choice o st starts2 start_explore start_power).1 with
      | none =>
        have hs := weighted_start2_choice_isSome o st starts2 start_explore start_power hs2
        rw [hw] at hs
        simp at hs
      | some p =>
        rw [hw] at hfail
        simp only [] at hfail
        by_cases hv : (get2 P db (weighted_start2_choice o st starts2
            start_explore start_power).2 chat_id p.1 p.2).1 = []
        · simp [hv] at hfail
        · simp [hv] at hfail
          revert hfail
          apply sample_match_start_ne_failed
          exact hv
  · simp only [hs3] at hfail
    simp [hs3] at hfail
    cases hw : (weighted_start3_choice o st starts3 start_explore start_power).1 with
    | none =>
      have hs := weighted_start3_choice_isSome o st starts3 start_explore start_power hs3
      rw [hw] at hs
      simp at hs
    | some t =>
      rw [hw] at hfail
      simp at hfail

theorem resolve_start3_not_failed (P : GenParams) (db : DBState) (o : Oracle)
    (chat_id : Int) (seed_tokens : Option (List Str))
    (starts3 : List (Str × Str × Str × Nat)) (starts2 : List (Str × Str × Nat))
    (next_explore next_power start_explore start_power : ℚ) (st : GenState) :
    ¬ (resolve_start3 P db o chat_id seed_tokens starts3 starts2
        next_explore next_power start_explore start_power st).1 = StartRes.failed := by
  intro hfail
  simp only [resolve_start3] at hfail
  cases seed_tokens with
  | none =>
    exact start_from_model_not_failed P db o chat_id starts3 starts2
      next_explore next_power start_explore start_power st hfail
  | some seeds =>
    by_cases h3 : 3 ≤ seeds.length
    · simp only [if_pos h3] at hfail
      cases hlook : get_start3_if_exists db chat_id (seeds.getD 0 []) (seeds.getD 1 [])
          (seeds.getD 2 []) with
      | some r =>
        rw [hlook] at hfail
        exact StartRes.noConfusion hfail
      | none =>
        rw [hlook] at hfail
        have h2 : 2 ≤ seeds.length := by omega
        simp only [if_pos h2] at hfail
        cases hlook2 : get_start_if_exists db chat_id (seeds.getD 0 [])
            (seeds.getD 1 []) with
        | none =>
          rw [hlook2] at hfail
          simp at hfail
          exact start_from_model_not_failed P db o chat_id starts3 starts2
            next_explore next_power start_explore start_power st hfail
        | some r =>
          rw [hlook2] at hfail
          simp only [] at hfail
          by_cases hv : (get2 P db st chat_id r.1 r.2.1).1 = []
          · simp [hv] at hfail
            exact start_from_model_not_failed P db o chat_id starts3 starts2
              next_explore next_power start_explore start_power
              (get2 P db st chat_id r.1 r.2.1).2 hfail
          · simp [hv] at hfail
            revert hfail
            apply sample_match_start_ne_failed
            exact hv
    · simp only [if_neg h3] at hfail
      by_cases h2 : 2 ≤ seeds.length
      · simp only [if_pos h2] at hfail
        cases hlook2 : get_start_if_exists db chat_id (seeds.getD 0 [])
            (seeds.getD 1 []) with
        | none =>
          rw [hlook2] at hfail
          simp at hfail
          exact start_from_model_not_failed P db o chat_id starts3 starts2
            next_explore next_power start_explore start_power st hfail
        | some r =>
          rw [hlook2] at hfail
          simp only [] at hfail
          by_cases hv : (get2 P db st chat_id r.1 r.2.1).1 = []
          · simp [hv] at hfail
            exact start_from_model_not_failed P db o chat_id starts3 starts2
              next_explore next_power start_explore start_power
              (get2 P db st chat_id r.1 r.2.1).2 hfail
          · simp [hv] at hfail
            revert hfail
            apply sample_match_start_ne_failed
            exact hv
      · simp only [if_neg h2] at hfail
        exact start_from_model_not_failed P db o chat_id starts3 starts2
          next_explore next_power start_explore start_power st hfail

theorem generate_loop_isSome (P : GenParams) (db : DBState) (o : Oracle) (chat_id : Int)
    (max_chars : Nat) (starts3 : List (Str × Str × Str × Nat)) (order : Int)
    (enable_backoff : Bool) (backoff_min_order : Int)
    (jump_probability next_explore next_power start_explore start_power : ℚ) :
    ∀ (fuel : Nat) (w1 w2 w3 : Str) (generated : List Str)
      (visited : List (Str × Str × Str)) (jump_count : Nat) (st : GenState),
      ((generate_loop P db o chat_id max_chars starts3 order enable_backoff
          backoff_min_order jump_probability next_explore next_power start_explore
          start_power fuel w1 w2 w3 generated visited jump_count st).1).isSome := by
  intro fuel
  induction fuel with
  | zero =>
    intro w1 w2 w3 generated visited jc st
    simp [generate_loop]
  | succ n ih =>
    intro w1 w2 w3 generated visited jc st
    simp only [generate_loop]
    cases hs : (generate_step P db o chat_id starts3 order enable_backoff
        backoff_min_order jump_probability next_explore next_power start_explore
        start_power w1 w2 w3 generated visited st).1 with
    | failed =>
      exact absurd hs (generate_step_not_failed P db o chat_id starts3 order
        enable_backoff backoff_min_order jump_probability next_explore next_power
        start_explore start_power w1 w2 w3 generated visited st)
    | broke => simp
    | jumped a b c =>
      exact ih a b c generated visited (jc + 1) _
    | extended w4 =>
      by_cases hmax : max_chars ≤ (detokenize (generated ++ [w4]) max_chars).length
      · simp [hmax]
      · simp only [if_neg hmax]
        exact ih w2 w3 w4 (generated ++ [w4]) _ jc _

theorem generate_loop_ne_none (P : GenParams) (db : DBState) (o : Oracle) (chat_id : Int)
    (max_chars : Nat) (starts3 : List (Str × Str × Str × Nat)) (order : Int)
    (enable_backoff : Bool) (backoff_min_order : Int)
    (jump_probability next_explore next_power start_explore start_power : ℚ)
    (fuel : Nat) (w1 w2 w3 : Str) (generated : List Str)
    (visited : List (Str × Str × Str)) (jump_count : Nat) (st : GenState) :
    ¬ (generate_loop P db o chat_id max_chars starts3 order enable_backoff
        backoff_min_order jump_probability next_explore next_power start_explore
        start_power fuel w1 w2 w3 generated visited jump_count st).1 = none := by
  intro hnone
  have hs := generate_loop_isSome P db o chat_id max_chars starts3 order enable_backoff
    backoff_min_order jump_probability next_explore next_power start_explore start_power
    fuel w1 w2 w3 generated visited jump_count st
  rw [hnone] at hs
  simp at hs

theorem generate_after_gate_not_failed (P : GenParams) (db : DBState) (o : Oracle)
    (chat_id : Int) (max_chars : Nat) (seed_tokens : Option (List Str))
    (starts3 : List (Str × Str × Str × Nat)) (starts2 : List (Str × Str × Nat))
    (order : Int) (enable_backoff : Bool) (backoff_min_order : Int)
    (jump_probability next_explore next_power start_explore start_power : ℚ)
    (st : GenState) :
    ¬ (generate_after_gate P db o chat_id max_chars seed_tokens starts3 starts2 order
        enable_backoff backoff_min_order jump_probability next_explore next_power
        start_explore start_power st).1 = GenOutcome.failed := by
  intro hfail
  simp only [generate_after_gate] at hfail
  cases hr : (resolve_start3 P db o chat_id seed_tokens starts3 starts2
      next_explore next_power start_explore start_power st).1 with
  | failed =>
    exact absurd hr (resolve_start3_not_failed P db o chat_id seed_tokens starts3
      starts2 next_explore next_power start_explore start_power st)
  | giveUp =>
    rw [hr] at hfail
    simp at hfail
  | ok w1 w2 w3 =>
    rw [hr] at hfail
    simp only [] at hfail
    cases hl : (generate_loop P db o chat_id max_chars starts3 order enable_backoff
        backoff_min_order jump_probability next_explore next_power start_explore
        start_power P.max_steps w1 w2 w3 [w1, w2, w3] [(w1, w2, w3)] 0
        (resolve_start3 P db o chat_id seed_tokens starts3 starts2
          next_explore next_power start_explore start_power st).2).1 with
    | none =>
      exact absurd hl (generate_loop_ne_none _ _ _ _ _ _ _ _ _ _ _ _ _ _ _ _ _ _ _ _ _ _)
    | some gj =>
      rw [hl] at hfail
      simp at hfail

theorem generate_core_not_failed (P : GenParams) (db : DBState) (o : Oracle)
    (chat_id : Int) (max_chars : Nat) (seed_tokens : Option (List Str))
    (randomness_strength : ℚ) (markov_order : Int) (enable_backoff : Bool)
    (backoff_min_order : Int) (st : GenState) :
    ¬ (generate_core P db o chat_id max_chars seed_tokens randomness_strength
        markov_order enable_backoff backoff_min_order st).1 = GenOutcome.failed := by
  intro hfail
  simp only [generate_core] at hfail
  all_goals try split at hfail
  all_goals try split at hfail
  all_goals try split at hfail
  any_goals simp at hfail
  all_goals
    exact generate_after_gate_not_failed _ _ _ _ _ _ _ _ _ _ _ _ _ _ _ _ _ hfail

/-- C9: generation never raises for absence of data — every weighted-sampling
call issued by `generate_text` is made on a non-empty population, so the
samplers' empty-population error branch is unreachable and an empty model
resolves to an empty string instead of an exception. -/
theorem generate_never_raises (P : GenParams) (db : DBState) (o : Oracle)
    (chat_id : Int) (max_chars : Nat) (seed_tokens : Option (List Str))
    (randomness_strength : ℚ) (markov_order : Int) (enable_backoff : Bool)
    (backoff_min_order : Int) (st : GenState) :
    ((generate_text P db o chat_id max_chars seed_tokens randomness_strength
        markov_order enable_backoff backoff_min_order st).1).isSome = true := by
  simp only [generate_text]
  cases hc : (generate_core P db o chat_id max_chars seed_tokens randomness_strength
      markov_order enable_backoff backoff_min_order st).1 with
  | failed =>
    exact absurd hc (generate_core_not_failed P db o chat_id max_chars seed_tokens
      randomness_strength markov_order enable_backoff backoff_min_order st)
  | early => simp
  | finished g j =>
    simp only []
    split_ifs <;> simp

/-! ## Output length bounds (C5) -/

theorem length_dropWhile_le {α : Type} (p : α → Bool) (l : List α) :
    (l.dropWhile p).length ≤ l.length := by
  induction l with
  | nil => simp
  | cons a t ih =>
    cases h : p a <;> simp [List.dropWhile, h] <;> omega

theorem pyRstrip_length_le (s : Str) : (pyRstrip s).length ≤ s.length := by
  unfold pyRstrip
  calc ((s.reverse.dropWhile Char.isWhitespace).reverse).length
      = (s.reverse.dropWhile Char.isWhitespace).length := by simp
    _ ≤ s.reverse.length := length_dropWhile_le _ _
    _ = s.length := by simp

theorem detokenize_length_le (tokens : List Str) (max_chars : Nat) :
    (detokenize tokens max_chars).length ≤ max_chars := by
  unfold detokenize
  by_cases hnil : tokens = []
  · simp [hnil]
  · simp only [if_neg hnil]
    set T := pyStrip (buildPartsRev tokens).reverse.join with hT
    by_cases hlen : max_chars < T.length
    · simp only [if_pos hlen]
      calc (pyRstrip (T.take max_chars)).length
          ≤ (T.take max_chars).length := pyRstrip_length_le _
        _ ≤ max_chars := by simp
    · simp only [if_neg hlen]
      omega

/-- C5: the string returned by `generate_text` never exceeds `max_chars`
characters, and when it is non-empty it has at least 5 characters. -/
theorem generate_length_bounds (P : GenParams) (db : DBState) (o : Oracle)
    (chat_id : Int) (max_chars : Nat) (seed_tokens : Option (List Str))
    (randomness_strength : ℚ) (markov_order : Int) (enable_backoff : Bool)
    (backoff_min_order : Int) (st : GenState) (res : Str)
    (h : (generate_text P db o chat_id max_chars seed_tokens randomness_strength
        markov_order enable_backoff backoff_min_order st).1 = some res) :
    res.length ≤ max_chars ∧ (¬ res = [] → 5 ≤ res.length) := by
  simp only [generate_text] at h
  cases hc : (generate_core P db o chat_id max_chars seed_tokens randomness_strength
      markov_order enable_backoff backoff_min_order st).1 with
  | failed =>
    rw [hc] at h
    simp at h
  | early =>
    rw [hc] at h
    simp at h
    subst h
    simp
  | finished g j =>
    rw [hc] at h
    simp only [] at h
    split_ifs at h with h1 h2 h3
    · simp at h
      subst h
      simp
    · simp at h
      subst h
      simp
    · simp at h
      subst h
      simp
    · simp at h
      subst h
      exact ⟨detokenize_length_le g max_chars, fun _ => by omega⟩

/-- Witness for C5: the empty model generates the empty string, which
satisfies both bounds at `max_chars = 280`. -/
theorem generate_length_bounds_witness :
    ([] : Str).length ≤ 280 ∧ (¬ ([] : Str) = [] → 5 ≤ ([] : Str).length) :=
  generate_length_bounds defaultGenParams DBState.empty zeroOracle 0 280 none 1 3
    true 1 GenState.initial [] (by decide)

/-! ## Start-prefix resolution priority (C6) -/

/-- Case analysis of the model-start resolution stage (markov.py lines
160–172) at an arbitrary sampler state: a sampled recorded order-3 start is
used if any exist; else a sampled order-2 start is extended by one sampled
successor, giving up when it has no recorded continuation; with no starts at
all the stage gives up. -/
theorem start_from_model_cases (P : GenParams) (db : DBState) (o : Oracle)
    (chat_id : Int) (starts3 : List (Str × Str × Str × Nat))
    (starts2 : List (Str × Str × Nat)) (ne np se sp : ℚ) (st : GenState) :
    (¬ starts3 = [] →
      ∃ t, t ∈ starts3.map (fun it => (it.1, it.2.1, it.2.2.1))
        ∧ (start_from_model P db o chat_id starts3 starts2 ne np se sp st).1
            = StartRes.ok t.1 t.2.1 t.2.2)
    ∧ (starts3 = [] → ¬ starts2 = [] →
      ∃ p, p ∈ starts2.map (fun it => (it.1, it.2.1))
        ∧ ((start_from_model P db o chat_id starts3 starts2 ne np se sp st).1
              = StartRes.giveUp
           ∨ ∃ w3, (start_from_model P db o chat_id starts3 starts2 ne np se sp
                st).1 = StartRes.ok p.1 p.2 w3))
    ∧ (starts3 = [] → starts2 = [] →
      (start_from_model P db o chat_id starts3 starts2 ne np se sp st).1
        = StartRes.giveUp) := by
  refine ⟨?_, ?_, ?_⟩
  · intro hs3
    simp only [start_from_model, if_pos hs3]
    cases hw : (weighted_start3_choice o st starts3 se sp).1 with
    | none =>
      have hs := weighted_start3_choice_isSome o st starts3 se sp hs3
      rw [hw] at hs
      simp at hs
    | some t =>
      exact ⟨t, weighted_start3_choice_mem _ _ _ _ _ _ hw, rfl⟩
  · intro hs3 hs2
    simp only [start_from_model, hs3]
    simp only [if_neg (by simp : ¬ ¬ ([] : List (Str × Str × Str × Nat)) = []),
      if_pos hs2]
    cases hw : (weighted_start2_choice o st starts2 se sp).1 with
    | none =>
      have hs := weighted_start2_choice_isSome o st starts2 se sp hs2
      rw [hw] at hs
      simp at hs
    | some p =>
      refine ⟨p, weighted_start2_choice_mem _ _ _ _ _ _ hw, ?_⟩
      by_cases hv : (get2 P db (weighted_start2_choice o st starts2 se sp).2
          chat_id p.1 p.2).1 = []
      · simp only [if_pos hv]
        exact Or.inl rfl
      · simp only [if_neg hv]
        cases hw2 : (weighted_next_choice o
            (get2 P db (weighted_start2_choice o st starts2 se sp).2
              chat_id p.1 p.2).2
            (get2 P db (weighted_start2_choice o st starts2 se sp).2
              chat_id p.1 p.2).1 ne np).1 with
        | none =>
          have hs := weighted_next_choice_isSome o
            (get2 P db (weighted_start2_choice o st starts2 se sp).2
              chat_id p.1 p.2).2
            (get2 P db (weighted_start2_choice o st starts2 se sp).2
              chat_id p.1 p.2).1 ne np hv
          rw [hw2] at hs
          simp at hs
        | some w3 =>
          exact Or.inr ⟨w3, rfl⟩
  · intro hs3 hs2
    simp [start_from_model, hs3, hs2]

/-- C6 (counterexample): the claimed rule "a supplied 2-token seed that
exists as a recorded order-2 start is extended by one weighted-sampled
successor" fails when the recorded pair has no recorded continuation: the
code leaves `start3` unset and falls through to sampling a model start
instead (markov.py lines 156 and 160). In a chat built from the messages
"a b" and "x y z", the seed ["a", "b"] is a recorded order-2 start, yet
resolution yields the model start (x, y, z), whose first two tokens differ
from the seed. -/
theorem seed_extension_claim_counterexample :
    ¬ (∀ (P : GenParams) (db : DBState) (o : Oracle) (chat_id : Int)
         (seeds : List Str) (r : Str × Str × Nat)
         (starts3 : List (Str × Str × Str × Nat))
         (starts2 : List (Str × Str × Nat)) (ne np se sp : ℚ) (st : GenState),
        (3 ≤ seeds.length →
          get_start3_if_exists db chat_id (seeds.getD 0 []) (seeds.getD 1 [])
            (seeds.getD 2 []) = none) →
        2 ≤ seeds.length →
        get_start_if_exists db chat_id (seeds.getD 0 []) (seeds.getD 1 [])
          = some r →
        ∃ w3, (resolve_start3 P db o chat_id (some seeds) starts3 starts2
            ne np se sp st).1 = StartRes.ok r.1 r.2.1 w3) := by
  intro h
  rcases h defaultGenParams dbSeedFallThrough zeroOracle 9 [str "a", str "b"]
      (str "a", str "b", 1) (get_starts3 dbSeedFallThrough 9)
      (get_starts dbSeedFallThrough 9) 0 0 0 0 GenState.initial
      (by decide) (by decide) (by decide) with ⟨w3, hw⟩
  have hres : (resolve_start3 defaultGenParams dbSeedFallThrough zeroOracle 9
      (some [str "a", str "b"]) (get_starts3 dbSeedFallThrough 9)
      (get_starts dbSeedFallThrough 9) 0 0 0 0 GenState.initial).1
      = StartRes.ok (str "x") (str "y") (str "z") := by decide
  rw [hres] at hw
  injection hw with h1 h2 h3
  exact absurd h1 (by decide)

/-- C6 (amended): `generate_text` resolves its starting 3-token prefix in
priority order — (a) a supplied 3-token seed recorded as an order-3 start is
used directly; (b) else a supplied 2-token seed recorded as an order-2 start
with at least one recorded continuation is extended by one sampled successor
drawn from those continuations; (b′) a recorded 2-token seed with no
recorded continuation is NOT extended: resolution falls through to the
model-start stage exactly as if no seed had been supplied; (c) with no
usable seed, a sampled recorded order-3 start is used if any exist; (d) else
a sampled order-2 start is extended by one sampled successor, giving up if
it has no continuation; (e) with no starts at all the resolution gives up;
and a run whose core gives up resolves to the empty string. -/
theorem seed_resolution_priority (P : GenParams) (db : DBState) (o : Oracle)
    (chat_id : Int) (seed_tokens : Option (List Str))
    (starts3 : List (Str × Str × Str × Nat)) (starts2 : List (Str × Str × Nat))
    (ne np se sp : ℚ) (st : GenState) :
    (∀ (seeds : List Str) (r : Str × Str × Str × Nat),
      seed_tokens = some seeds → 3 ≤ seeds.length →
      get_start3_if_exists db chat_id (seeds.getD 0 []) (seeds.getD 1 [])
        (seeds.getD 2 []) = some r →
      (resolve_start3 P db o chat_id seed_tokens starts3 starts2 ne np se sp st).1
        = StartRes.ok r.1 r.2.1 r.2.2.1)
    ∧ (∀ (seeds : List Str) (r : Str × Str × Nat),
      seed_tokens = some seeds → 2 ≤ seeds.length →
      (seeds.length < 3 ∨ get_start3_if_exists db chat_id (seeds.getD 0 [])
        (seeds.getD 1 []) (seeds.getD 2 []) = none) →
      get_start_if_exists db chat_id (seeds.getD 0 []) (seeds.getD 1 []) = some r →
      ¬ (get2 P db st chat_id r.1 r.2.1).1 = [] →
      ∃ w3, w3 ∈ ((get2 P db st chat_id r.1 r.2.1).1).map (fun it => it.1)
        ∧ (resolve_start3 P db o chat_id seed_tokens starts3 starts2 ne np se sp st).1
            = StartRes.ok r.1 r.2.1 w3)
    ∧ (∀ (seeds : List Str) (r : Str × Str × Nat),
      seed_tokens = some seeds → 2 ≤ seeds.length →
      (seeds.length < 3 ∨ get_start3_if_exists db chat_id (seeds.getD 0 [])
        (seeds.getD 1 []) (seeds.getD 2 []) = none) →
      get_start_if_exists db chat_id (seeds.getD 0 []) (seeds.getD 1 []) = some r →
      (get2 P db st chat_id r.1 r.2.1).1 = [] →
      (resolve_start3 P db o chat_id seed_tokens starts3 starts2 ne np se sp st).1
          = (start_from_model P db o chat_id starts3 starts2 ne np se sp
              (get2 P db st chat_id r.1 r.2.1).2).1
        ∧ (¬ starts3 = [] →
          ∃ t, t ∈ starts3.map (fun it => (it.1, it.2.1, it.2.2.1))
            ∧ (resolve_start3 P db o chat_id seed_tokens starts3 starts2 ne np se
                sp st).1 = StartRes.ok t.1 t.2.1 t.2.2)
        ∧ (starts3 = [] → ¬ starts2 = [] →
          ∃ p, p ∈ starts2.map (fun it => (it.1, it.2.1))
            ∧ ((resolve_start3 P db o chat_id seed_tokens starts3 starts2 ne np se
                  sp st).1 = StartRes.giveUp
               ∨ ∃ w3, (resolve_start3 P db o chat_id seed_tokens starts3 starts2
                    ne np se sp st).1 = StartRes.ok p.1 p.2 w3))
        ∧ (starts3 = [] → starts2 = [] →
          (resolve_start3 P db o chat_id seed_tokens starts3 starts2 ne np se sp
            st).1 = StartRes.giveUp))
    ∧ ((∀ seeds, seed_tokens = some seeds →
          (seeds.length < 3 ∨ get_start3_if_exists db chat_id (seeds.getD 0 [])
            (seeds.getD 1 []) (seeds.getD 2 []) = none)) →
       (∀ seeds, seed_tokens = some seeds →
          (seeds.length < 2 ∨ get_start_if_exists db chat_id (seeds.getD 0 [])
            (seeds.getD 1 []) = none)) →
       (¬ starts3 = [] →
        ∃ t, t ∈ starts3.map (fun it => (it.1, it.2.1, it.2.2.1))
          ∧ (resolve_start3 P db o chat_id seed_tokens starts3 starts2 ne np se sp st).1
              = StartRes.ok t.1 t.2.1 t.2.2)
       ∧ (starts3 = [] → ¬ starts2 = [] →
          ∃ p, p ∈ starts2.map (fun it => (it.1, it.2.1))
            ∧ ((resolve_start3 P db o chat_id seed_tokens starts3 starts2 ne np se sp
                  st).1 = StartRes.giveUp
               ∨ ∃ w3, (resolve_start3 P db o chat_id seed_tokens starts3 starts2
                    ne np se sp st).1 = StartRes.ok p.1 p.2 w3))
       ∧ (starts3 = [] → starts2 = [] →
          (resolve_start3 P db o chat_id seed_tokens starts3 starts2 ne np se sp st).1
            = StartRes.giveUp))
    ∧ (∀ (max_chars : Nat) (randomness_strength : ℚ) (markov_order : Int)
        (enable_backoff : Bool) (backoff_min_order : Int),
        (generate_core P db o chat_id max_chars seed_tokens randomness_strength
          markov_order enable_backoff backoff_min_order st).1 = GenOutcome.early →
        (generate_text P db o chat_id max_chars seed_tokens randomness_strength
          markov_order enable_backoff backoff_min_order st).1 = some []) := by
  refine ⟨?_, ?_, ?_, ?_, ?_⟩
  · intro seeds r hseed hlen hlook
    subst hseed
    simp only [resolve_start3, if_pos hlen, hlook]
  · intro seeds r hseed hlen hfail3 hlook hvar
    subst hseed
    simp only [resolve_start3]
    have hred : (if 3 ≤ seeds.length then
          get_start3_if_exists db chat_id (seeds.getD 0 []) (seeds.getD 1 [])
            (seeds.getD 2 [])
        else none) = none := by
      by_cases h3 : 3 ≤ seeds.length
      · rw [if_pos h3]
        rcases hfail3 with hshort | hnone
        · omega
        · exact hnone
      · rw [if_neg h3]
    rw [hred]
    simp only [if_pos hlen, hlook]
    simp only [if_neg hvar]
    cases hw : (weighted_next_choice o (get2 P db st chat_id r.1 r.2.1).2
        (get2 P db st chat_id r.1 r.2.1).1 ne np).1 with
    | none =>
      have hs := weighted_next_choice_isSome o (get2 P db st chat_id r.1 r.2.1).2
        (get2 P db st chat_id r.1 r.2.1).1 ne np hvar
      rw [hw] at hs
      simp at hs
    | some w3 =>
      exact ⟨w3, weighted_next_choice_mem _ _ _ _ _ _ hw, rfl⟩
  · intro seeds r hseed hlen hfail3 hlook hv
    subst hseed
    have heq : (resolve_start3 P db o chat_id (some seeds) starts3 starts2
        ne np se sp st).1
        = (start_from_model P db o chat_id starts3 starts2 ne np se sp
            (get2 P db st chat_id r.1 r.2.1).2).1 := by
      simp only [resolve_start3]
      have hred : (if 3 ≤ seeds.length then
            get_start3_if_exists db chat_id (seeds.getD 0 []) (seeds.getD 1 [])
              (seeds.getD 2 [])
          else none) = none := by
        by_cases h3 : 3 ≤ seeds.length
        · rw [if_pos h3]
          rcases hfail3 with hshort | hnone
          · omega
          · exact hnone
        · rw [if_neg h3]
      rw [hred]
      simp only [if_pos hlen, hlook]
      simp only [if_pos hv]
    have hc := start_from_model_cases P db o chat_id starts3 starts2 ne np se sp
      (get2 P db st chat_id r.1 r.2.1).2
    refine ⟨heq, ?_, ?_, ?_⟩
    · intro hs3
      rcases hc.1 hs3 with ⟨t, ht, hres2⟩
      exact ⟨t, ht, heq.trans hres2⟩
    · intro hs3 hs2
      rcases hc.2.1 hs3 hs2 with ⟨p, hp, hres2⟩
      refine ⟨p, hp, ?_⟩
      rcases hres2 with hg | ⟨w3, hk⟩
      · exact Or.inl (heq.trans hg)
      · exact Or.inr ⟨w3, heq.trans hk⟩
    · intro hs3 hs2
      exact heq.trans (hc.2.2 hs3 hs2)
  · intro ha hb
    have hseeded : ∀ st' : GenState,
        (resolve_start3 P db o chat_id seed_tokens starts3 starts2 ne np se sp st').1
          = (start_from_model P db o chat_id starts3 starts2 ne np se sp st').1 := by
      intro st'
      cases seed_tokens with
      | none => rfl
      | some seeds =>
        simp only [resolve_start3]
        have hr3 := ha seeds rfl
        have hr2 := hb seeds rfl
        have hred : (if 3 ≤ seeds.length then
              get_start3_if_exists db chat_id (seeds.getD 0 []) (seeds.getD 1 [])
                (seeds.getD 2 [])
            else none) = none := by
          by_cases h3 : 3 ≤ seeds.length
          · rw [if_pos h3]
            rcases hr3 with hshort | hnone
            · omega
            · exact hnone
          · rw [if_neg h3]
        rw [hred]
        have hred2 : (if 2 ≤ seeds.length then
              get_start_if_exists db chat_id (seeds.getD 0 []) (seeds.getD 1 [])
            else none) = none := by
          by_cases h2 : 2 ≤ seeds.length
          · rw [if_pos h2]
            rcases hr2 with hshort | hnone
            · omega
            · exact hnone
          · rw [if_neg h2]
        rw [hred2]
    have hc := start_from_model_cases P db o chat_id starts3 starts2 ne np se sp st
    refine ⟨?_, ?_, ?_⟩
    · intro hs3
      rcases hc.1 hs3 with ⟨t, ht, hres2⟩
      exact ⟨t, ht, (hseeded st).trans hres2⟩
    · intro hs3 hs2
      rcases hc.2.1 hs3 hs2 with ⟨p, hp, hres2⟩
      refine ⟨p, hp, ?_⟩
      rcases hres2 with hg | ⟨w3, hk⟩
      · exact Or.inl ((hseeded st).trans hg)
      · exact Or.inr ⟨w3, (hseeded st).trans hk⟩
    · intro hs3 hs2
      exact (hseeded st).trans (hc.2.2 hs3 hs2)
  · intro max_chars randomness_strength markov_order enable_backoff
      backoff_min_order hearly
    simp only [generate_text, hearly]

/-- Witness for C6: a supplied 3-token seed recorded as an order-3 start of
the seeded test chat is used directly as the starting prefix. -/
theorem seed_resolution_priority_witness :
    (resolve_start3 defaultGenParams dbSeeded zeroOracle 7
        (some [str "Я", str "очень", str "люблю"])
        (get_starts3 dbSeeded 7) (get_starts dbSeeded 7) 0 0 0 0 GenState.initial).1
      = StartRes.ok (str "Я") (str "очень") (str "люблю") :=
  (seed_resolution_priority defaultGenParams dbSeeded zeroOracle 7
      (some [str "Я", str "очень", str "люблю"]) (get_starts3 dbSeeded 7)
      (get_starts dbSeeded 7) 0 0 0 0 GenState.initial).1
    [str "Я", str "очень", str "люблю"] (str "Я", str "очень", str "люблю", 2)
    rfl (by decide) (by decide)

/-! ## Backoff tier gating (C3) -/

/-- C3 (counterexample): the claimed gate "order-2 transitions are queried
only if backoff is enabled and `backoffMinOrder ≤ 2`" does not exist in the
code. With `backoff_min_order = 3` and backoff enabled, a step whose context
has no order-3 continuation still queries the order-2 tier. -/
theorem backoff_min_order_gate_counterexample :
    ¬ (∀ (P : GenParams) (db : DBState) (o : Oracle) (chat_id : Int) (order : Int)
         (enable_backoff : Bool) (backoff_min_order : Int) (ne np : ℚ)
         (w1 w2 w3 : Str) (visited : List (Str × Str × Str)) (st : GenState),
        ((generate_tiers P db o chat_id order enable_backoff backoff_min_order
            ne np w1 w2 w3 visited st).2.1.queried2 = true →
          enable_backoff = true ∧ backoff_min_order ≤ 2)
        ∧ ((generate_tiers P db o chat_id order enable_backoff backoff_min_order
            ne np w1 w2 w3 visited st).2.1.queried1 = true →
          enable_backoff = true ∧ backoff_min_order ≤ 1)
        ∧ ¬ (generate_tiers P db o chat_id order enable_backoff backoff_min_order
            ne np w1 w2 w3 visited st).1 = StepOut.failed) := by
  intro h
  have h2 := (h defaultGenParams DBState.empty zeroOracle 0 3 true 3 0 0
      (str "a") (str "b") (str "c") [] GenState.initial).1 (by decide)
  exact absurd h2.2 (by decide)

/-- C3 (amended): when the current 3-token context has no order-3
continuation (at markov order ≥ 3, outside the jump branch), the code
queries the order-2 tier whenever backoff is enabled — regardless of
`backoff_min_order` — and stops extending when backoff is disabled; the
order-1 tier is queried exactly when backoff is enabled, the order-2 pool is
empty and `backoff_min_order ≤ 1`; when no tier yields a candidate the step
breaks out of the loop rather than failing the call. -/
theorem backoff_tier_order (P : GenParams) (db : DBState) (o : Oracle)
    (chat_id : Int) (order : Int) (enable_backoff : Bool) (backoff_min_order : Int)
    (ne np : ℚ) (w1 w2 w3 : Str) (visited : List (Str × Str × Str)) (st : GenState)
    (hord : 3 ≤ order)
    (hpool3 : (get3 P db st chat_id w1 w2 w3).1 = []) :
    ((generate_tiers P db o chat_id order enable_backoff backoff_min_order
        ne np w1 w2 w3 visited st).2.1.queried2 = true ↔ enable_backoff = true)
    ∧ ((generate_tiers P db o chat_id order enable_backoff backoff_min_order
        ne np w1 w2 w3 visited st).2.1.queried1 = true ↔
        enable_backoff = true
        ∧ (get2 P db (get3 P db st chat_id w1 w2 w3).2 chat_id w2 w3).1 = []
        ∧ backoff_min_order ≤ 1)
    ∧ (enable_backoff = false →
        (generate_tiers P db o chat_id order enable_backoff backoff_min_order
          ne np w1 w2 w3 visited st).1 = StepOut.broke)
    ∧ (enable_backoff = true →
        (get2 P db (get3 P db st chat_id w1 w2 w3).2 chat_id w2 w3).1 = [] →
        1 < backoff_min_order →
        (generate_tiers P db o chat_id order enable_backoff backoff_min_order
          ne np w1 w2 w3 visited st).1 = StepOut.broke)
    ∧ (enable_backoff = true →
        (get2 P db (get3 P db st chat_id w1 w2 w3).2 chat_id w2 w3).1 = [] →
        backoff_min_order ≤ 1 →
        (get1 P db (get2 P db (get3 P db st chat_id w1 w2 w3).2 chat_id w2 w3).2
          chat_id w3).1 = [] →
        (generate_tiers P db o chat_id order enable_backoff backoff_min_order
          ne np w1 w2 w3 visited st).1 = StepOut.broke)
    ∧ ¬ (generate_tiers P db o chat_id order enable_backoff backoff_min_order
        ne np w1 w2 w3 visited st).1 = StepOut.failed := by
  have hnf := generate_tiers_not_failed P db o chat_id order enable_backoff
    backoff_min_order ne np w1 w2 w3 visited st
  refine ⟨?_, ?_, ?_, ?_, ?_, hnf⟩
  all_goals
    simp only [generate_tiers]
    rw [show (if 3 ≤ order then get3 P db st chat_id w1 w2 w3 else ([], st))
        = get3 P db st chat_id w1 w2 w3 from if_pos hord]
    simp only [hpool3]
  · by_cases hb : enable_backoff = false
    · simp [hb, hord]
    · simp only [hb]
      by_cases hp2 : (get2 P db (get3 P db st chat_id w1 w2 w3).2 chat_id w2 w3).1 = []
      · simp only [hp2]
        by_cases hm : 1 < backoff_min_order
        · simp [hord, hm]
        · simp only [hm]
          by_cases hp1 : (get1 P db
              (get2 P db (get3 P db st chat_id w1 w2 w3).2 chat_id w2 w3).2
              chat_id w3).1 = []
          · simp [hord, hm, hp1]
          · simp only [hp1]
            cases hw : (weighted_next_choice o
                (get1 P db (get2 P db (get3 P db st chat_id w1 w2 w3).2 chat_id w2 w3).2
                  chat_id w3).2
                (get1 P db (get2 P db (get3 P db st chat_id w1 w2 w3).2 chat_id w2 w3).2
                  chat_id w3).1 ne np).1 with
            | none =>
              have hs := weighted_next_choice_isSome o
                (get1 P db (get2 P db (get3 P db st chat_id w1 w2 w3).2 chat_id w2 w3).2
                  chat_id w3).2
                (get1 P db (get2 P db (get3 P db st chat_id w1 w2 w3).2 chat_id w2 w3).2
                  chat_id w3).1 ne np hp1
              rw [hw] at hs
              simp at hs
            | some w4 => simp [hord, hm, hp1, hw]
      · simp only [hp2]
        cases hw : (weighted_next_choice o
            (get2 P db (get3 P db st chat_id w1 w2 w3).2 chat_id w2 w3).2
            (get2 P db (get3 P db st chat_id w1 w2 w3).2 chat_id w2 w3).1 ne np).1 with
        | none =>
          have hs := weighted_next_choice_isSome o
            (get2 P db (get3 P db st chat_id w1 w2 w3).2 chat_id w2 w3).2
            (get2 P db (get3 P db st chat_id w1 w2 w3).2 chat_id w2 w3).1 ne np hp2
          rw [hw] at hs
          simp at hs
        | some w4 => simp [hord, hp2, hw]
  · by_cases hb : enable_backoff = false
    · simp [hb, hord]
    · simp only [hb]
      by_cases hp2 : (get2 P db (get3 P db st chat_id w1 w2 w3).2 chat_id w2 w3).1 = []
      · simp only [hp2]
        by_cases hm : 1 < backoff_min_order
        · simp [hord, hm]
        · simp only [hm]
          by_cases hp1 : (get1 P db
              (get2 P db (get3 P db st chat_id w1 w2 w3).2 chat_id w2 w3).2
              chat_id w3).1 = []
          · simp [hord, hm, hp1]
            omega
          · simp only [hp1]
            cases hw : (weighted_next_choice o
                (get1 P db (get2 P db (get3 P db st chat_id w1 w2 w3).2 chat_id w2 w3).2
                  chat_id w3).2
                (get1 P db (get2 P db (get3 P db st chat_id w1 w2 w3).2 chat_id w2 w3).2
                  chat_id w3).1 ne np).1 with
            | none =>
              have hs := weighted_next_choice_isSome o
                (get1 P db (get2 P db (get3 P db st chat_id w1 w2 w3).2 chat_id w2 w3).2
                  chat_id w3).2
                (get1 P db (get2 P db (get3 P db st chat_id w1 w2 w3).2 chat_id w2 w3).2
                  chat_id w3).1 ne np hp1
              rw [hw] at hs
              simp at hs
            | some w4 =>
              simp [hord, hm, hp1, hw]
              omega
      · simp only [hp2]
        cases hw : (weighted_next_choice o
            (get2 P db (get3 P db st chat_id w1 w2 w3).2 chat_id w2 w3).2
            (get2 P db (get3 P db st chat_id w1 w2 w3).2 chat_id w2 w3).1 ne np).1 with
        | none =>
          have hs := weighted_next_choice_isSome o
            (get2 P db (get3 P db st chat_id w1 w2 w3).2 chat_id w2 w3).2
            (get2 P db (get3 P db st chat_id w1 w2 w3).2 chat_id w2 w3).1 ne np hp2
          rw [hw] at hs
          simp at hs
        | some w4 => simp [hord, hp2, hw]
  · intro hb
    simp [hb, hord]
  · intro hb hp2 hm
    simp [hb, hord, hp2, hm]
  · intro hb hp2 hm hp1
    have hm' : ¬ 1 < backoff_min_order := by omega
    simp [hb, hord, hp2, hm', hp1]

/-- Witness for C3 (amended): at the fallback chat, with backoff enabled and
an empty order-3 pool, the order-2 tier is queried. -/
theorem backoff_tier_order_witness :
    ((generate_tiers defaultGenParams dbOrder2Fallback zeroOracle 0 3 true 1 0 0
        (str "aa") (str "bb") (str "cc") [] GenState.initial).2.1.queried2 = true
      ↔ true = true) :=
  (backoff_tier_order defaultGenParams dbOrder2Fallback zeroOracle 0 3 true 1 0 0
    (str "aa") (str "bb") (str "cc") [] GenState.initial (by decide) (by decide)).1

/-! ## Empty-result characterization (C4) -/

theorem core_early_of_no_starts (P : GenParams) (db : DBState) (o : Oracle)
    (chat_id : Int) (max_chars : Nat) (seed_tokens : Option (List Str))
    (randomness_strength : ℚ) (markov_order : Int) (enable_backoff : Bool)
    (backoff_min_order : Int) (st : GenState)
    (h3 : get_starts3 db chat_id = []) (h2 : get_starts db chat_id = []) :
    (generate_core P db o chat_id max_chars seed_tokens randomness_strength
        markov_order enable_backoff backoff_min_order st).1 = GenOutcome.early := by
  simp [generate_core, h3, h2]

/-- C4 (counterexample): the claimed four-way characterization of empty
results misses the start-resolution dead end. A chat with a recorded order-2
start but no recorded continuation yields the empty string even though it has
recorded starts, no run reaches the final checks, and none of the claimed
conditions holds. -/
theorem generate_empty_claim_counterexample :
    ¬ (∀ (P : GenParams) (db : DBState) (o : Oracle) (chat_id : Int)
         (max_chars : Nat) (seed_tokens : Option (List Str))
         (randomness_strength : ℚ) (markov_order : Int) (enable_backoff : Bool)
         (backoff_min_order : Int) (st : GenState) (res : Str),
        (generate_text P db o chat_id max_chars seed_tokens randomness_strength
            markov_order enable_backoff backoff_min_order st).1 = some res →
        (res = [] ↔
          (get_starts3 db chat_id = [] ∧ get_starts db chat_id = [])
          ∨ ∃ g j, (generate_core P db o chat_id max_chars seed_tokens
                randomness_strength markov_order enable_backoff backoff_min_order
                st).1 = GenOutcome.finished g j
              ∧ ((detokenize g max_chars).length < 5
                 ∨ message_exists db chat_id (detokenize g max_chars) = true
                 ∨ (3/2 ≤ clampStrength randomness_strength ∧ 10 < g.length
                    ∧ j = 0)))) := by
  intro h
  have hiff := h defaultGenParams dbStartNoContinuation zeroOracle 0 100 none 1 3
    true 1 GenState.initial [] (by decide)
  have hrhs := hiff.mp rfl
  rcases hrhs with ⟨_, hstarts⟩ | ⟨g, j, hfin, _⟩
  · exact absurd hstarts (by decide)
  · have hearly : (generate_core defaultGenParams dbStartNoContinuation zeroOracle 0
        100 none 1 3 true 1 GenState.initial).1 = GenOutcome.early := by decide
    rw [hfin] at hearly
    exact GenOutcome.noConfusion hearly

/-- C4 (amended): `generate_text` returns the empty string exactly when the
chat has zero recorded starts, or the run ends early without producing a
3-token prefix (which subsumes the zero-starts case and also covers an
order-2 start with no recorded continuation), or the completed run fails an
acceptance check: detokenized length < 5, exact match with a stored raw
message, or clamped strength ≥ 1.5 with more than 10 tokens and zero context
jumps. In every other completed run the detokenized sequence is returned. -/
theorem generate_empty_characterization (P : GenParams) (db : DBState) (o : Oracle)
    (chat_id : Int) (max_chars : Nat) (seed_tokens : Option (List Str))
    (randomness_strength : ℚ) (markov_order : Int) (enable_backoff : Bool)
    (backoff_min_order : Int) (st : GenState) (res : Str)
    (h : (generate_text P db o chat_id max_chars seed_tokens randomness_strength
        markov_order enable_backoff backoff_min_order st).1 = some res) :
    (res = [] ↔
      (get_starts3 db chat_id = [] ∧ get_starts db chat_id = [])
      ∨ (generate_core P db o chat_id max_chars seed_tokens randomness_strength
          markov_order enable_backoff backoff_min_order st).1 = GenOutcome.early
      ∨ ∃ g j, (generate_core P db o chat_id max_chars seed_tokens
            randomness_strength markov_order enable_backoff backoff_min_order
            st).1 = GenOutcome.finished g j
          ∧ ((detokenize g max_chars).length < 5
             ∨ message_exists db chat_id (detokenize g max_chars) = true
             ∨ (3/2 ≤ clampStrength randomness_strength ∧ 10 < g.length ∧ j = 0)))
    ∧ (∀ g j, (generate_core P db o chat_id max_chars seed_tokens
          randomness_strength markov_order enable_backoff backoff_min_order
          st).1 = GenOutcome.finished g j →
        ¬ (detokenize g max_chars).length < 5 →
        ¬ message_exists db chat_id (detokenize g max_chars) = true →
        ¬ (3/2 ≤ clampStrength randomness_strength ∧ 10 < g.length ∧ j = 0) →
        res = detokenize g max_chars) := by
  simp only [generate_text] at h
  cases hc : (generate_core P db o chat_id max_chars seed_tokens randomness_strength
      markov_order enable_backoff backoff_min_order st).1 with
  | failed =>
    rw [hc] at h
    simp at h
  | early =>
    rw [hc] at h
    simp at h
    subst h
    constructor
    · exact ⟨fun _ => Or.inr (Or.inl rfl), fun _ => rfl⟩
    · intro g j hfin
      exact absurd hfin (by simp)
  | finished g j =>
    rw [hc] at h
    simp only [] at h
    have hinj : ∀ g' j', GenOutcome.finished g j = GenOutcome.finished g' j' →
        g' = g ∧ j' = j := by
      intro g' j' hgj
      cases hgj
      exact ⟨rfl, rfl⟩
    split_ifs at h with h1 h2 h3
    · simp at h
      subst h
      refine ⟨⟨fun _ => Or.inr (Or.inr ⟨g, j, rfl, Or.inl h1⟩), fun _ => rfl⟩, ?_⟩
      intro g' j' hfin h1' _ _
      obtain ⟨hg, _⟩ := hinj g' j' hfin
      rw [hg] at h1'
      exact absurd h1 h1'
    · simp at h
      subst h
      refine ⟨⟨fun _ => Or.inr (Or.inr ⟨g, j, rfl, Or.inr (Or.inl h2)⟩),
        fun _ => rfl⟩, ?_⟩
      intro g' j' hfin _ h2' _
      obtain ⟨hg, _⟩ := hinj g' j' hfin
      rw [hg] at h2'
      exact absurd h2 h2'
    · simp at h
      subst h
      refine ⟨⟨fun _ => Or.inr (Or.inr ⟨g, j, rfl, Or.inr (Or.inr h3)⟩),
        fun _ => rfl⟩, ?_⟩
      intro g' j' hfin _ _ h3'
      obtain ⟨hg, hj⟩ := hinj g' j' hfin
      rw [hg, hj] at h3'
      exact absurd h3 h3'
    · simp at h
      subst h
      have hne : ¬ detokenize g max_chars = [] := by
        intro hnil
        rw [hnil] at h1
        simp at h1
      refine ⟨⟨fun hempty => absurd hempty hne, ?_⟩, ?_⟩
      · intro hrhs
        rcases hrhs with ⟨hs3, hs2⟩ | hearly | ⟨g', j', hfin, hbad⟩
        · have hthis := core_early_of_no_starts P db o chat_id max_chars seed_tokens
            randomness_strength markov_order enable_backoff backoff_min_order st
            hs3 hs2
          rw [hc] at hthis
          exact absurd hthis (by simp)
        · exact absurd hearly (by simp)
        · obtain ⟨hg, hj⟩ := hinj g' j' hfin
          rw [hg] at hbad
          rcases hbad with hb | hb | hb
          · exact absurd hb h1
          · exact absurd hb h2
          · rw [hj] at hb
            exact absurd hb h3
      · intro g' j' hfin _ _ _
        obtain ⟨hg, _⟩ := hinj g' j' hfin
        rw [hg]

/-- Witness for C4 (amended): on the empty model the run gives the empty
string, and the characterization attributes it to an early (no-prefix) end. -/
theorem generate_empty_characterization_witness :
    (generate_text defaultGenParams DBState.empty zeroOracle 0 100 none 1 3 true 1
        GenState.initial).1 = some []
    ∧ (generate_core defaultGenParams DBState.empty zeroOracle 0 100 none 1 3 true 1
        GenState.initial).1 = GenOutcome.early := by
  have h : (generate_text defaultGenParams DBState.empty zeroOracle 0 100 none 1 3
      true 1 GenState.initial).1 = some [] := by decide
  have hch := (generate_empty_characterization defaultGenParams DBState.empty
    zeroOracle 0 100 none 1 3 true 1 GenState.initial [] h).1
  rcases hch.mp rfl with ⟨h3, h2⟩ | hearly | ⟨g, j, hfin, hbad⟩
  · exact ⟨h, core_early_of_no_starts defaultGenParams DBState.empty zeroOracle 0 100
      none 1 3 true 1 GenState.initial h3 h2⟩
  · exact ⟨h, hearly⟩
  · exact ⟨h, by decide⟩

end PepeEdtaBot
